import Mathlib

/-!
Verification of the AITod segment pipeline (backend/app): the segment data
model, the provider gateway (`llm_client`), the transcriber, context builder
and translator services, and the CSV/SRT serializers.

Python floats are modelled as exact rationals (`ℚ`); machine-level IEEE
rounding is outside the model.  Stateful I/O (files, network) is modelled by
explicit parameters: LLM providers become function-valued fields of a
`Backends` record, configuration becomes a `Settings` record, and the
serializers work on file *contents* (`String`) rather than paths.  All
definitions are executable; rational arithmetic inside executable code is
written on `num`/`den` (with `mkRat`) because the library's `Rat` operations
are `irreducible` and do not evaluate in the kernel.
-/

namespace AITod


/-! ### Small character utilities -/

/-- The single-quote character, as a string (used when assembling the error
messages that quote an offending value). -/
def sq : String := ⟨[Char.ofNat 39]⟩


/-- Numeric value of a decimal digit character. -/
def digitVal (c : Char) : Nat := c.toNat - 48


/-- Decimal digit test (`'0'` to `'9'`). -/
def isDigitB (c : Char) : Bool := 48 ≤ c.toNat && c.toNat ≤ 57

def natToCharsAux : Nat → Nat → List Char
  | 0, _ => []
  | fuel + 1, n =>
      if n = 0 then []
      else natToCharsAux fuel (n / 10) ++ [Nat.digitChar (n % 10)]


/-- Decimal rendering of a natural number (`"0"` for zero). -/
def natToChars (n : Nat) : List Char :=
  if n = 0 then [Nat.digitChar 0] else natToCharsAux n n


/-- Decimal rendering as a `String` (the model of Python's `str(n)`). -/
def natStr (n : Nat) : String := ⟨natToChars n⟩


/-- Accumulator-style decimal value of a digit string. -/
def parseVal (a : Nat) (l : List Char) : Nat :=
  l.foldl (fun x c => x * 10 + digitVal c) a


/-- Parse a non-empty all-digit string as a natural number. -/
def parseNat? (l : List Char) : Option Nat :=
  if l.isEmpty then none
  else if l.all isDigitB then some (parseVal 0 l) else none


/-- Left-pad a digit string with zeros to width `w` (Python's `{:0wd}`). -/
def renderNatPad (w n : Nat) : List Char := List.leftpad w '0' (natToChars n)

/-- Render an integer zero-padded to total width `w`, sign included
(Python's `{:0wd}` on `int`). -/
def intPad (w : Nat) (i : Int) : List Char :=
  if i < 0 then '-' :: renderNatPad (w - 1) i.natAbs else renderNatPad w i.toNat

def splitOnChar (sep : Char) : List Char → List (List Char)
  | [] => [[]]
  | c :: rest =>
      let r := splitOnChar sep rest
      if c = sep then [] :: r else (c :: r.headI) :: r.tail

def linesJoin : List (List Char) → List Char
  | [] => []
  | l :: ls => l ++ '\n' :: linesJoin ls

/-- Python's `str.join`: `pyJoin sep [a, b, c] = a ++ sep ++ b ++ sep ++ c`. -/
def pyJoin (sep : String) : List String → String
  | [] => ""
  | [s] => s
  | s :: rest => s ++ sep ++ pyJoin sep rest


/-- Python `str.strip()` whitespace (ASCII part of the model). -/
def isPyWs (c : Char) : Bool :=
  c = ' ' || c = '\t' || c = '\n' || c = '\r' || c = Char.ofNat 11 || c = Char.ofNat 12


/-- Strip leading and trailing whitespace from a character list. -/
def stripChars (l : List Char) : List Char :=
  ((l.dropWhile isPyWs).reverse.dropWhile isPyWs).reverse


/-- The model of Python's `s.strip()`. -/
def pyStrip (s : String) : String := ⟨stripChars s.data⟩

def pyWordCount (s : String) : Nat :=
  ((s.data.splitOnP isPyWs).filter (fun w => !w.isEmpty)).length

/-! ### Kernel-computable rational helpers

`Rat.add`/`Rat.mul`/`Rat.div` are `irreducible`, so the executable embedding
computes on `num`/`den` directly, and the lemmas below connect those
computations back to ordinary rational arithmetic for the statements. -/

/-- `⌊a / n⌋` for a natural `n > 0` (the model of Python's `a // n` on a
non-negative divisor). -/
def qfloorDiv (a : ℚ) (n : Nat) : Int := a.num / (a.den * n : Nat)


/-- Python's `a % n` for a natural `n > 0`: `a - n * (a // n)`. -/
def qmodNat (a : ℚ) (n : Nat) : ℚ := mkRat (a.num - qfloorDiv a n * n * a.den) a.den


/-- Multiply a rational by a natural number, on raw `num`/`den`. -/
def qmulK (a : ℚ) (k : Nat) : ℚ := mkRat (a.num * k) a.den


/-- Python's `int(a)` (truncation toward zero). -/
def pyTruncQ (a : ℚ) : Int := a.num.tdiv a.den

/-- A transcript segment: `{'start': float, 'end': float, 'text': str}`. -/
structure Segment where
  start : ℚ
  «end» : ℚ
  text : String
deriving DecidableEq

/-- A translated segment, as produced by `Translator.translate_segments`:
the input segment's fields plus `translated_text`. -/
structure TranslatedSegment where
  start : ℚ
  «end» : ℚ
  text : String
  translated_text : String
deriving DecidableEq

/-- The failure taxonomy of the Python code: `ValueError`,
`FileNotFoundError`, and the generic wrapped `Exception`. -/
inductive Err where
  | valueError (msg : String)
  | fileNotFound (msg : String)
  | exn (msg : String)
deriving DecidableEq


/-- `str(e)` on a raised error. -/
def Err.message : Err → String
  | .valueError m => m
  | .fileNotFound m => m
  | .exn m => m

deriving instance DecidableEq for Except

/-- The configuration slice used by the segment pipeline
(`app/utils/config.py`). -/
structure Settings where
  OPENAI_API_KEY : String
  GEMINI_API_KEY : String
  DEFAULT_LLM_PROVIDER : String
  SUPPORTED_LANGUAGES : List String

/-- `config.py` defaults: default provider `"gemini"`, the 20-language
allow-list, and no API keys configured unless the environment provides them. -/
def defaultSettings : Settings :=
  { OPENAI_API_KEY := ""
    GEMINI_API_KEY := ""
    DEFAULT_LLM_PROVIDER := "gemini"
    SUPPORTED_LANGUAGES :=
      ["en", "zh", "hi", "es", "ar", "fr", "bn", "pt", "ru", "ur",
       "id", "de", "ja", "mr", "te", "tr", "ta", "vi", "ko", "sw"] }

/-- The shape of an OpenAI `verbose_json` transcription response as the code
reads it: an optional per-segment list (absent or empty triggers the
fallback) and the full text. -/
structure OpenAITranscription where
  segments : Option (List Segment)
  text : String

/-- The two external LLM backends, as opaque functions: transcription calls
take the audio path, chat/generation calls take the full prompt and return
the raw response text.  Network behaviour is a parameter of the model. -/
structure Backends where
  openaiTranscribe : String → Except Err OpenAITranscription
  geminiTranscribe : String → Except Err String
  openaiChat : String → Except Err String
  geminiGenerate : String → Except Err String

/-! ### A minimal JSON segment-array reader

`Modelled from the spec:` the Gemini transcription path asks the model for a
raw JSON array `[{"start": ..., "end": ..., "text": ...}, ...]` and feeds the
response to `json.loads` with no schema enforcement (§4.1, §9 of the spec;
`json` is the Python standard library, not part of `src/`).  The reader below
accepts exactly that shape: a (possibly empty) array of flat objects with
numeric `start`/`end` and string `text`, and fails on anything else. -/


/-- Opening brace character (written via its code point). -/
def braceL : Char := Char.ofNat 123


/-- Closing brace character. -/
def braceR : Char := Char.ofNat 125


/-- Skip ASCII whitespace. -/
def skipWs (l : List Char) : List Char := l.dropWhile isPyWs

/-- Parse a JSON number restricted to the non-negative decimal forms the
prompt requests (`0.0`, `2.5`, ...), returning the value and the rest. -/
def jsonNum? (l : List Char) : Option (ℚ × List Char) :=
  let intPart := l.takeWhile isDigitB
  let rest := l.drop intPart.length
  match parseNat? intPart with
  | none => none
  | some n =>
      match rest with
      | c :: rest2 =>
          if c = '.' then
            let fracPart := rest2.takeWhile isDigitB
            let rest3 := rest2.drop fracPart.length
            match parseNat? fracPart with
            | none => none
            | some f => some (mkRat (n * 10 ^ fracPart.length + f) (10 ^ fracPart.length), rest3)
          else some (mkRat n 1, rest)
      | [] => some (mkRat n 1, [])

/-- Parse a JSON string with no escape handling (the modelled responses do
not contain escapes), returning the contents and the rest after the closing
quote. -/
def jsonStr? : Nat → List Char → Option (List Char × List Char)
  | 0, _ => none
  | _, [] => none
  | fuel + 1, c :: rest =>
      if c = '"' then some ([], rest)
      else
        match jsonStr? fuel rest with
        | some (s, r) => some (c :: s, r)
        | none => none


/-- Parse one `"key": value` pair where the value is a number or a string. -/
def jsonPair? (fuel : Nat) (l : List Char) :
    Option (List Char × (ℚ ⊕ List Char) × List Char) :=
  match skipWs l with
  | c :: rest =>
      if c = '"' then
        match jsonStr? fuel rest with
        | some (key, r1) =>
            match skipWs r1 with
            | c2 :: r2 =>
                if c2 = ':' then
                  match skipWs r2 with
                  | c3 :: r3 =>
                      if c3 = '"' then
                        match jsonStr? fuel r3 with
                        | some (s, r4) => some (key, Sum.inr s, r4)
                        | none => none
                      else
                        match jsonNum? (c3 :: r3) with
                        | some (q, r4) => some (key, Sum.inl q, r4)
                        | none => none
                  | [] => none
                else none
            | [] => none
        | none => none
      else none
  | [] => none


/-- Fold a parsed pair into a partial segment record. -/
def jsonApplyPair (acc : Option ℚ × Option ℚ × Option (List Char))
    (key : List Char) (v : ℚ ⊕ List Char) :
    Option ℚ × Option ℚ × Option (List Char) :=
  match key, v with
  | ['s', 't', 'a', 'r', 't'], Sum.inl q => (some q, acc.2.1, acc.2.2)
  | ['e', 'n', 'd'], Sum.inl q => (acc.1, some q, acc.2.2)
  | ['t', 'e', 'x', 't'], Sum.inr s => (acc.1, acc.2.1, some s)
  | _, _ => acc


/-- Parse the pairs of one object (after the opening brace). -/
def jsonObjPairs? : Nat → List Char → (Option ℚ × Option ℚ × Option (List Char)) →
    Option (Segment × List Char)
  | 0, _, _ => none
  | fuel + 1, l, acc =>
      match jsonPair? fuel l with
      | none => none
      | some (key, v, rest) =>
          let acc2 := jsonApplyPair acc key v
          match skipWs rest with
          | c :: r2 =>
              if c = ',' then jsonObjPairs? fuel r2 acc2
              else if c = braceR then
                match acc2 with
                | (some s, some e, some t) => some (⟨s, e, ⟨t⟩⟩, r2)
                | _ => none
              else none
          | [] => none

/-- Parse the elements of an array (after the opening bracket, first element
pending). -/
def jsonElems? : Nat → List Char → Option (List Segment)
  | 0, _ => none
  | fuel + 1, l =>
      match skipWs l with
      | c :: rest =>
          if c = braceL then
            match jsonObjPairs? fuel rest (none, none, none) with
            | none => none
            | some (seg, r1) =>
                match skipWs r1 with
                | c2 :: r2 =>
                    if c2 = ',' then
                      match jsonElems? fuel r2 with
                      | some segs => some (seg :: segs)
                      | none => none
                    else if c2 = ']' then
                      if (skipWs r2).isEmpty then some [seg] else none
                    else none
                | [] => none
          else none
      | [] => none


/-- `json.loads` restricted to the prompt's segment-array shape. -/
def jsonParseSegments (s : String) : Option (List Segment) :=
  match skipWs s.data with
  | c :: rest =>
      if c = '[' then
        match skipWs rest with
        | c2 :: r2 =>
            if c2 = ']' then
              if (skipWs r2).isEmpty then some [] else none
            else jsonElems? (s.data.length + 1) (c2 :: r2)
        | [] => none
      else none
  | [] => none

/-! ### Provider gateway (`app/utils/llm_client.py`) -/

namespace LLMClient

/-- `provider = provider or settings.DEFAULT_LLM_PROVIDER`: `None` *and the
empty string* both fall back to the configured default (Python truthiness). -/
def resolveProvider (cfg : Settings) : Option String → String
  | none => cfg.DEFAULT_LLM_PROVIDER
  | some p => if p = "" then cfg.DEFAULT_LLM_PROVIDER else p


/-- The fixed translation prompt template. -/
def translationPrompt (text source_language target_language context : String) : String :=
  "You are a professional translator.\n\nContext about the full content: " ++ context ++
  "\n\nTranslate the following text from " ++ source_language ++ " to " ++
  target_language ++
  ".\nMaintain professional tone, cultural nuances, and technical accuracy.\nOnly return the translated text, no explanations.\n\nText to translate:\n\"" ++
  text ++ "\"\n\nTranslation:"

/-- `LLMClient._translate_with_openai` (the leading underscore is not a legal
Lean name): credential check, backend call, wrap failures, trim the response. -/
def translate_with_openai (cfg : Settings) (b : Backends)
    (text source_language target_language context : String) : Except Err String :=
  if cfg.OPENAI_API_KEY = "" then .error (.valueError "OpenAI API key not configured")
  else
    match b.openaiChat (translationPrompt text source_language target_language context) with
    | .error e => .error (.exn ("OpenAI translation failed: " ++ e.message))
    | .ok r => .ok (pyStrip r)


/-- `LLMClient._translate_with_gemini`. -/
def translate_with_gemini (cfg : Settings) (b : Backends)
    (text source_language target_language context : String) : Except Err String :=
  if cfg.GEMINI_API_KEY = "" then .error (.valueError "Gemini API key not configured")
  else
    match b.geminiGenerate (translationPrompt text source_language target_language context) with
    | .error e => .error (.exn ("Gemini translation failed: " ++ e.message))
    | .ok r => .ok (pyStrip r)


/-- `LLMClient.translate_with_context`: provider resolution and dispatch. -/
def translate_with_context (cfg : Settings) (b : Backends)
    (text source_language target_language context : String)
    (provider : Option String) : Except Err String :=
  let p := resolveProvider cfg provider
  if p = "openai" then translate_with_openai cfg b text source_language target_language context
  else if p = "gemini" then translate_with_gemini cfg b text source_language target_language context
  else .error (.valueError ("Unknown provider: " ++ p))

/-- `LLMClient._transcribe_with_openai`: if the response carries a non-empty
segment list, use it (trimming each text); otherwise fall back to a single
segment with zero timestamps and the full text. -/
def transcribe_with_openai (cfg : Settings) (b : Backends)
    (audio_file_path language : String) : Except Err (List Segment) :=
  if cfg.OPENAI_API_KEY = "" then .error (.valueError "OpenAI API key not configured")
  else
    match b.openaiTranscribe audio_file_path with
    | .error e => .error (.exn ("OpenAI transcription failed: " ++ e.message))
    | .ok resp =>
        match resp.segments with
        | some (s :: rest) =>
            .ok ((s :: rest).map fun sg => { sg with text := pyStrip sg.text })
        | _ => .ok [⟨0, 0, resp.text⟩]

/-- `LLMClient._transcribe_with_gemini`: the raw response text goes through
`json.loads`; a parse failure is wrapped and raised — there is no
single-segment fallback on this path. -/
def transcribe_with_gemini (cfg : Settings) (b : Backends)
    (audio_file_path language : String) : Except Err (List Segment) :=
  if cfg.GEMINI_API_KEY = "" then .error (.valueError "Gemini API key not configured")
  else
    match b.geminiTranscribe audio_file_path with
    | .error e => .error (.exn ("Gemini transcription failed: " ++ e.message))
    | .ok txt =>
        match jsonParseSegments txt with
        | some segs => .ok segs
        | none => .error (.exn "Gemini transcription failed: invalid JSON")


/-- `LLMClient.transcribe_audio`: provider resolution and dispatch. -/
def transcribe_audio (cfg : Settings) (b : Backends)
    (audio_file_path language : String) (provider : Option String) :
    Except Err (List Segment) :=
  let p := resolveProvider cfg provider
  if p = "openai" then transcribe_with_openai cfg b audio_file_path language
  else if p = "gemini" then transcribe_with_gemini cfg b audio_file_path language
  else .error (.valueError ("Unknown provider: " ++ p))

end LLMClient

/-! ### Transcriber service (`app/services/transcriber.py`) -/


/-- The transcriber's unsupported-language message. -/
def transcribeLangMsg (cfg : Settings) (language : String) : String :=
  "Language " ++ sq ++ language ++ sq ++
    " is not supported. Supported languages: " ++ pyJoin ", " cfg.SUPPORTED_LANGUAGES


/-- The translator's unsupported-source-language message. -/
def srcLangMsg (cfg : Settings) (language : String) : String :=
  "Source language " ++ sq ++ language ++ sq ++
    " is not supported. Supported languages: " ++ pyJoin ", " cfg.SUPPORTED_LANGUAGES


/-- The translator's unsupported-target-language message. -/
def tgtLangMsg (cfg : Settings) (language : String) : String :=
  "Target language " ++ sq ++ language ++ sq ++
    " is not supported. Supported languages: " ++ pyJoin ", " cfg.SUPPORTED_LANGUAGES

namespace Transcriber

/-- `Transcriber.transcribe_audio`: file-existence check, language allow-list
check (in that order), then delegation to the gateway.  The file system is
modelled by the `fileExists` predicate. -/
def transcribe_audio (fileExists : String → Bool) (cfg : Settings) (b : Backends)
    (audio_path : String) (language : String) (provider : Option String) :
    Except Err (List Segment) :=
  if ¬ fileExists audio_path then
    .error (.fileNotFound ("Audio file not found: " ++ audio_path))
  else if ¬ cfg.SUPPORTED_LANGUAGES.contains language then
    .error (.valueError (transcribeLangMsg cfg language))
  else LLMClient.transcribe_audio cfg b audio_path language provider


/-- `Transcriber.get_full_transcript_text`. -/
def get_full_transcript_text (segments : List Segment) : String :=
  pyJoin " " (segments.map (·.text))

end Transcriber

/-! ### Translator service (`app/services/translator.py`) -/

namespace Translator

/-- `Translator.translate_segment`: validate both language codes against the
allow-list (source first, with distinct messages), then delegate. -/
def translate_segment (cfg : Settings) (b : Backends)
    (text source_language target_language context : String)
    (provider : Option String) : Except Err String :=
  if ¬ cfg.SUPPORTED_LANGUAGES.contains source_language then
    .error (.valueError (srcLangMsg cfg source_language))
  else if ¬ cfg.SUPPORTED_LANGUAGES.contains target_language then
    .error (.valueError (tgtLangMsg cfg target_language))
  else LLMClient.translate_with_context cfg b text source_language target_language
    context provider


/-- The sequential per-segment loop inside `Translator.translate_segments`. -/
def translate_segments_loop (cfg : Settings) (b : Backends)
    (source_language target_language context : String) (provider : Option String) :
    List Segment → Except Err (List TranslatedSegment)
  | [] => .ok []
  | seg :: rest =>
      match translate_segment cfg b seg.text source_language target_language
          context provider with
      | .error e => .error e
      | .ok t =>
          match translate_segments_loop cfg b source_language target_language
              context provider rest with
          | .error e => .error e
          | .ok others => .ok (⟨seg.start, seg.«end», seg.text, t⟩ :: others)

/-- `Translator.translate_segments`: fail on empty input, else translate each
segment in order, copying `start`/`end`/`text` and adding `translated_text`. -/
def translate_segments (cfg : Settings) (b : Backends) (segments : List Segment)
    (source_language target_language context : String) (provider : Option String) :
    Except Err (List TranslatedSegment) :=
  if segments.isEmpty then .error (.valueError "Cannot translate empty segments")
  else translate_segments_loop cfg b source_language target_language context
    provider segments

end Translator

/-! ### Context builder service (`app/services/context_builder.py`) -/

namespace ContextBuilder

/-- The fixed context-generation prompt (`full_text` truncated to its first
2000 characters). -/
def contextPrompt (full_text source_language : String) : String :=
  "Analyze the following transcript in " ++ source_language ++
  " language and provide a brief context summary (2-3 sentences maximum).\n\nInclude:\n1. The main topic or theme\n2. The tone (e.g., formal, casual, technical, educational)\n3. Any key technical terms, proper nouns, or domain-specific vocabulary\n\nKeep it concise and focused on information that would help a translator maintain accuracy and consistency.\n\nTranscript:\n\"" ++
  (⟨full_text.data.take 2000⟩ : String) ++ "\"\n\nContext Summary:"

/-- `ContextBuilder._generate_context_with_llm`: dispatch on the resolved
provider inside a `try` whose catch-all returns the word-count fallback; the
internal unknown-provider `ValueError` is raised inside the same `try`. -/
def generate_context_with_llm (cfg : Settings) (b : Backends)
    (full_text source_language : String) (provider : Option String) :
    Except Err String :=
  let p := LLMClient.resolveProvider cfg provider
  let attempt : Except Err String :=
    if p = "openai" then
      LLMClient.translate_with_openai cfg b (contextPrompt full_text source_language)
        source_language "en" ""
    else if p = "gemini" then
      LLMClient.translate_with_gemini cfg b (contextPrompt full_text source_language)
        source_language "en" ""
    else .error (.valueError ("Unknown provider: " ++ p))
  match attempt with
  | .ok context => .ok (pyStrip context)
  | .error _ =>
      .ok ("Content in " ++ source_language ++ " language. Length: approximately " ++
        natStr (pyWordCount full_text) ++ " words.")

/-- `ContextBuilder.build_context`: fail on empty input; short-circuit to a
fixed literal when the *stripped* joined text is shorter than 10 characters;
otherwise go through the LLM path. -/
def build_context (cfg : Settings) (b : Backends) (segments : List Segment)
    (source_language : String) (provider : Option String) : Except Err String :=
  if segments.isEmpty then .error (.valueError "Cannot build context from empty segments")
  else
    let full_text := pyJoin " " (segments.map (·.text))
    if (pyStrip full_text).length < 10 then
      .ok "Short video content without specific context."
    else generate_context_with_llm cfg b full_text source_language provider

end ContextBuilder

/-! ### SRT serializer (`app/services/srt_generator.py`) -/

namespace SRTGenerator

/-- `SRTGenerator.format_timestamp`: `hours = int(seconds // 3600)`,
`minutes = int((seconds % 3600) // 60)`, `secs = int(seconds % 60)`,
`milliseconds = int((seconds % 1) * 1000)`, rendered as
`HH:MM:SS,mmm` with `02d`/`02d`/`02d`/`03d` padding. -/
def format_timestamp (seconds : ℚ) : String :=
  let hours : Int := qfloorDiv seconds 3600
  let minutes : Int := qfloorDiv (qmodNat seconds 3600) 60
  let secs : Int := pyTruncQ (qmodNat seconds 60)
  let milliseconds : Int := pyTruncQ (qmulK (qmodNat seconds 1) 1000)
  ⟨intPad 2 hours ++ ':' :: intPad 2 minutes ++ ':' :: intPad 2 secs ++
    ',' :: intPad 3 milliseconds⟩

end SRTGenerator

/-- The amended claim's formula (spec §4.5 with `floor` in place of `round`
for the milliseconds): `hours = ⌊s/3600⌋`, `minutes = ⌊(s mod 3600)/60⌋`,
`secs = ⌊s mod 60⌋`, `millis = ⌊(s mod 1)·1000⌋`, each zero-padded. -/
def formatTimestampFloorSpec (seconds : ℚ) : String :=
  let m3600 := seconds - 3600 * ⌊seconds / 3600⌋
  let m60 := seconds - 60 * ⌊seconds / 60⌋
  let m1 := seconds - 1 * ⌊seconds / 1⌋
  ⟨renderNatPad 2 (Int.toNat ⌊seconds / 3600⌋) ++
    ':' :: renderNatPad 2 (Int.toNat ⌊m3600 / 60⌋) ++
    ':' :: renderNatPad 2 (Int.toNat ⌊m60⌋) ++
    ',' :: renderNatPad 3 (Int.toNat ⌊m1 * 1000⌋)⟩

/-- The claim's formula taken at its word (spec §4.5):
`millis = round((seconds mod 1) * 1000)`. -/
def formatTimestampRoundSpec (seconds : ℚ) : String :=
  let m3600 := seconds - 3600 * ⌊seconds / 3600⌋
  let m60 := seconds - 60 * ⌊seconds / 60⌋
  let m1 := seconds - 1 * ⌊seconds / 1⌋
  ⟨renderNatPad 2 (Int.toNat ⌊seconds / 3600⌋) ++
    ':' :: renderNatPad 2 (Int.toNat ⌊m3600 / 60⌋) ++
    ':' :: renderNatPad 2 (Int.toNat ⌊m60⌋) ++
    ',' :: renderNatPad 3 (Int.toNat (round (m1 * 1000)))⟩

/-! ### SRT composition and parsing

`Modelled from the spec:` `generate_srt_from_segments` and `parse_srt`
delegate the actual serialization to the third-party `srt` library
(`srt.compose` / `srt.parse`), which is not part of `src/`.  Spec §4.5 gives
the format: one block per segment — 1-based sequential index line,
`HH:MM:SS,mmm --> HH:MM:SS,mmm` timing line, the text, a blank separator —
with timestamps at millisecond precision, and a parser tolerant of the
standard SRT grammar.  A file is modelled as its character list; the library
truncates sub-millisecond detail. -/


/-- `⌊a * k⌋` computed on raw `num`/`den`. -/
def qmulFloor (a : ℚ) (k : Nat) : Int := a.num * k / (a.den : Int)

/-- Milliseconds-precision timestamp `HH:MM:SS,mmm` for a total count of
milliseconds. -/
def renderTimestampMs (n : Nat) : List Char :=
  renderNatPad 2 (n / 3600000) ++ ':' :: renderNatPad 2 (n / 60000 % 60) ++
    ':' :: renderNatPad 2 (n / 1000 % 60) ++ ',' :: renderNatPad 3 (n % 1000)


/-- Timestamp characters of a time in seconds (truncated to milliseconds). -/
def srtTimeChars (t : ℚ) : List Char := renderTimestampMs (Int.toNat (qmulFloor t 1000))


/-- The `start --> end` timing line. -/
def srtTimeLine (s e : ℚ) : List Char :=
  srtTimeChars s ++ ' ' :: '-' :: '-' :: '>' :: ' ' :: srtTimeChars e


/-- One SRT block, as lines: index, timing line, text, blank separator. -/
def srtBlockLines (i : Nat) (seg : Segment) : List (List Char) :=
  [natToChars i, srtTimeLine seg.start seg.«end», seg.text.data, []]


/-- All blocks, indices counting up from `i`. -/
def srtLines : Nat → List Segment → List (List Char)
  | _, [] => []
  | i, seg :: rest => srtBlockLines i seg ++ srtLines (i + 1) rest


/-- `srt.compose` on the original-text field: every line newline-terminated. -/
def srtCompose (segments : List Segment) : String := ⟨linesJoin (srtLines 1 segments)⟩

namespace SRTGenerator

/-- `SRTGenerator.generate_srt_from_segments` with `use_translated=False`
(the direction the round-trip claim uses): fail on an empty list, else
compose.  The dynamic missing-field checks of the Python code are vacuous on
the typed `Segment` record. -/
def generate_srt_from_segments (segments : List Segment) : Except Err String :=
  if segments.isEmpty then .error (.valueError "Cannot generate SRT from empty segments")
  else .ok (srtCompose segments)

end SRTGenerator


/-- Parse `HH:MM:SS,mmm` into seconds. -/
def parseTimeChars (l : List Char) : Option ℚ :=
  match splitOnChar ':' l with
  | [hh, mm, rest] =>
      match splitOnChar ',' rest with
      | [ss, mmm] =>
          match parseNat? hh, parseNat? mm, parseNat? ss, parseNat? mmm with
          | some h, some m, some s, some ms =>
              some (mkRat ((h * 3600 + m * 60 + s) * 1000 + ms) 1000)
          | _, _, _, _ => none
      | _ => none
  | _ => none


/-- Parse a `start --> end` timing line. -/
def parseTimeLine (l : List Char) : Option (ℚ × ℚ) :=
  match splitOnChar ' ' l with
  | [t1, arrow, t2] =>
      if arrow = ['-', '-', '>'] then
        match parseTimeChars t1, parseTimeChars t2 with
        | some a, some b => some (a, b)
        | _, _ => none
      else none
  | _ => none


/-- Join multi-line subtitle text back with newlines. -/
def charsIntercalateNewline : List (List Char) → List Char
  | [] => []
  | [x] => x
  | x :: rest => x ++ '\n' :: charsIntercalateNewline rest

/-- Parse SRT blocks from the file's lines: skip blank lines, then expect a
numeric index line, a timing line, and one-or-more text lines up to a blank
separator. -/
def parseBlocksF : Nat → List (List Char) → Option (List Segment)
  | _, [] => some []
  | 0, _ :: _ => none
  | fuel + 1, l :: rest =>
      if l.isEmpty then parseBlocksF fuel rest
      else
        match parseNat? l with
        | none => none
        | some _ =>
            match rest with
            | [] => none
            | timeLine :: rest2 =>
                match parseTimeLine timeLine with
                | none => none
                | some (s, e) =>
                    let texts := rest2.takeWhile (fun x => !x.isEmpty)
                    let rest3 := rest2.dropWhile (fun x => !x.isEmpty)
                    if texts.isEmpty then none
                    else
                      match parseBlocksF fuel rest3 with
                      | none => none
                      | some segs =>
                          some (⟨s, e, ⟨charsIntercalateNewline texts⟩⟩ :: segs)

namespace SRTGenerator

/-- `SRTGenerator.parse_srt` (the `srt.parse` call modelled from the spec's
grammar; a failure is wrapped like the Python `except` clause). -/
def parse_srt (srt_content : String) : Except Err (List Segment) :=
  match parseBlocksF (srt_content.data.length + 2) (splitOnChar '\n' srt_content.data) with
  | some segs => .ok segs
  | none => .error (.exn "Failed to parse SRT content: invalid SRT")

end SRTGenerator


/-- A time as recovered from its SRT rendering: truncated to milliseconds. -/
def msQ (t : ℚ) : ℚ := mkRat (Int.toNat (qmulFloor t 1000)) 1000


/-- A segment as recovered from its SRT block. -/
def srtRound (s : Segment) : Segment := ⟨msQ s.start, msQ s.«end», s.text⟩


/-- Time-ordering check of the claim: consecutive segments do not overlap. -/
def srtChainOk : List Segment → Bool
  | [] => true
  | [_] => true
  | a :: b :: rest => (decide (a.«end» ≤ b.start)) && srtChainOk (b :: rest)

/-! ### CSV serialization

`Modelled from the spec:` the transcript CSV is written with the Python
standard library's `csv.DictWriter` and read back with `csv.DictReader`
(`csv` is not part of `src/`).  Spec §4.5: columns `start_time,end_time,text`;
times stored in decimal string form and re-parsed as floating point; text
stored with no escaping beyond standard CSV quoting (quote a field containing
the delimiter, the quote character, or a line break; double embedded quotes).
A file is modelled as its character list. -/


/-- Does a field need quoting? -/
def csvNeedsQuote (f : List Char) : Bool :=
  f.any fun c => c = ',' || c = '"' || c = '\n' || c = '\r'


/-- Double every quote character. -/
def csvEscape : List Char → List Char
  | [] => []
  | c :: rest => if c = '"' then '"' :: '"' :: csvEscape rest else c :: csvEscape rest


/-- Encode one field with minimal quoting. -/
def csvFieldEnc (f : List Char) : List Char :=
  if csvNeedsQuote f then '"' :: (csvEscape f ++ ['"']) else f


/-- Encode one record (comma-separated fields). -/
def csvRowEnc : List (List Char) → List Char
  | [] => []
  | [f] => csvFieldEnc f
  | f :: rest => csvFieldEnc f ++ ',' :: csvRowEnc rest


/-- Encode a whole file (newline-terminated records). -/
def csvFileEnc (rows : List (List (List Char))) : List Char :=
  linesJoin (rows.map csvRowEnc)

/-- Parse a quoted field after its opening quote: a doubled quote is a
literal quote, a lone quote closes the field. -/
def csvQuoted? : Nat → List Char → Option (List Char × List Char)
  | 0, _ => none
  | _ + 1, [] => none
  | fuel + 1, c :: rest =>
      if c = '"' then
        match rest with
        | c2 :: rest2 =>
            if c2 = '"' then
              match csvQuoted? fuel rest2 with
              | some (s, r) => some ('"' :: s, r)
              | none => none
            else some ([], rest)
        | [] => some ([], [])
      else
        match csvQuoted? fuel rest with
        | some (s, r) => some (c :: s, r)
        | none => none


/-- Characters that terminate an unquoted field. -/
def csvNotSep (c : Char) : Bool := !(c = ',' || c = '\n')

/-- Parse the fields of one record, consuming the record's terminating
newline; returns the fields and the rest of the input. -/
def csvFields? : Nat → List Char → Option (List (List Char) × List Char)
  | 0, _ => none
  | fuel + 1, l =>
      let fr : Option (List Char × List Char) :=
        match l with
        | c :: rest =>
            if c = '"' then csvQuoted? fuel rest
            else some (l.takeWhile csvNotSep, l.dropWhile csvNotSep)
        | [] => some ([], [])
      match fr with
      | none => none
      | some (fld, rest2) =>
          match rest2 with
          | [] => some ([fld], [])
          | c2 :: r2 =>
              if c2 = ',' then
                match csvFields? fuel r2 with
                | some (flds, r3) => some (fld :: flds, r3)
                | none => none
              else if c2 = '\n' then some ([fld], r2)
              else none


/-- Parse all records of a file. -/
def csvRecords? (fuel : Nat) (l : List Char) : Option (List (List (List Char))) :=
  if l.isEmpty then some []
  else
    match fuel with
    | 0 => none
    | fuel + 1 =>
        match csvFields? fuel l with
        | none => none
        | some (flds, rest) =>
            match csvRecords? fuel rest with
            | none => none
            | some recs => some (flds :: recs)

/-- Decimal string form of a non-negative time whose denominator divides
`10^6` (Python floats print in decimal; times outside the modelled domain
render as an unparsable placeholder). -/
def renderTime6 (t : ℚ) : List Char :=
  if 0 ≤ t.num ∧ t.den ∣ 1000000 then
    let n : Nat := (t.num * 1000000 / (t.den : Int)).toNat
    natToChars (n / 1000000) ++ '.' :: renderNatPad 6 (n % 1000000)
  else ['?']

/-- Parse a non-negative decimal number (the forms `float()` sees from the
files this pipeline writes). -/
def parseDecimal? (l : List Char) : Option ℚ :=
  match splitOnChar '.' l with
  | [ip] =>
      match parseNat? ip with
      | some n => some (mkRat n 1)
      | none => none
  | [ip, fp] =>
      match parseNat? ip, parseNat? fp with
      | some n, some f => some (mkRat (n * 10 ^ fp.length + f) (10 ^ fp.length))
      | _, _ => none
  | _ => none

/-- Convert parsed transcript rows (`[start_time, end_time, text]`) into
segments. -/
def loadRows : List (List (List Char)) → Option (List Segment)
  | [] => some []
  | [a, b, t] :: rest =>
      match parseDecimal? a, parseDecimal? b, loadRows rest with
      | some s, some e, some segs => some (⟨s, e, ⟨t⟩⟩ :: segs)
      | _, _, _ => none
  | _ :: _ => none

namespace Transcriber

/-- `Transcriber.save_transcript_to_csv`, at the level of the produced file
content: fail on empty input, else header plus one
`start_time,end_time,text` record per segment. -/
def save_transcript_to_csv (segments : List Segment) : Except Err String :=
  if segments.isEmpty then .error (.valueError "Cannot save empty transcript")
  else
    .ok ⟨csvFileEnc (["start_time".data, "end_time".data, "text".data] ::
      segments.map fun s => [renderTime6 s.start, renderTime6 s.«end», s.text.data])⟩

/-- `Transcriber.load_transcript_from_csv`, on file content (the
file-existence check lives outside the content model): `DictReader` needs the
header row, then each row's `start_time`/`end_time` parse as floats. -/
def load_transcript_from_csv (content : String) : Except Err (List Segment) :=
  match csvRecords? (content.data.length + 1) content.data with
  | none => .error (.exn "Failed to load transcript from CSV: parse error")
  | some [] => .ok []
  | some (hdr :: rows) =>
      if hdr = ["start_time".data, "end_time".data, "text".data] then
        match loadRows rows with
        | some segs => .ok segs
        | none => .error (.exn "Failed to load transcript from CSV: bad row")
      else .error (.exn "Failed to load transcript from CSV: bad header")

end Transcriber

/-! ### Concrete fixtures for witnesses and counterexamples -/


/-- Default settings with a Gemini credential configured. -/
def cfgG : Settings := { defaultSettings with GEMINI_API_KEY := "demo-key" }


/-- Default settings with both credentials configured. -/
def cfgBoth : Settings :=
  { defaultSettings with OPENAI_API_KEY := "demo-key-1", GEMINI_API_KEY := "demo-key-2" }


/-- Backends that fail every call. -/
def bFail : Backends :=
  { openaiTranscribe := fun _ => .error (.exn "boom")
    geminiTranscribe := fun _ => .error (.exn "boom")
    openaiChat := fun _ => .error (.exn "boom")
    geminiGenerate := fun _ => .error (.exn "boom") }

/-- Backends whose Gemini side succeeds: transcription returns the empty JSON
array, generation returns the fixed text `"X"`. -/
def bOkG : Backends :=
  { openaiTranscribe := fun _ => .error (.exn "unused")
    geminiTranscribe := fun _ => .ok "[]"
    openaiChat := fun _ => .error (.exn "unused")
    geminiGenerate := fun _ => .ok "X" }


/-- Backends whose Gemini transcription returns non-JSON output. -/
def bBadG : Backends :=
  { openaiTranscribe := fun _ => .error (.exn "unused")
    geminiTranscribe := fun _ => .ok "oops"
    openaiChat := fun _ => .error (.exn "unused")
    geminiGenerate := fun _ => .error (.exn "unused") }


/-- Backends whose translation calls both return the fixed text `"hola"`. -/
def bHola : Backends :=
  { openaiTranscribe := fun _ => .error (.exn "unused")
    geminiTranscribe := fun _ => .error (.exn "unused")
    openaiChat := fun _ => .ok "hola"
    geminiGenerate := fun _ => .ok "hola" }

/-! ## Theorems -/


theorem isDigitB_digitChar {d : Nat} (h : d < 10) :
    isDigitB (Nat.digitChar d) = true := by
  interval_cases d <;> decide

theorem digitVal_digitChar {d : Nat} (h : d < 10) :
    digitVal (Nat.digitChar d) = d := by
  interval_cases d <;> decide

/-! ### Decimal rendering and parsing of natural numbers

`Nat.digits` is defined by well-founded recursion and does not reduce in the
kernel, so the renderer below is a fuel-indexed structural recursion. -/

/-- Most-significant-first decimal digits of `n` (no leading zeros, empty for
`0`); `fuel` bounds the recursion depth. -/
theorem parseVal_append (a : Nat) (l₁ l₂ : List Char) :
    parseVal a (l₁ ++ l₂) = parseVal (parseVal a l₁) l₂ := by
  simp [parseVal, List.foldl_append]

theorem natToCharsAux_digits :
    ∀ fuel n, ∀ c ∈ natToCharsAux fuel n, isDigitB c = true := by
  intro fuel
  induction fuel with
  | zero => intro n c hc; simp [natToCharsAux] at hc
  | succ f ih =>
      intro n c hc
      by_cases h : n = 0
      · simp [natToCharsAux, h] at hc
      · simp only [natToCharsAux, h, if_false, List.mem_append,
          List.mem_singleton] at hc
        rcases hc with hc | hc
        · exact ih _ _ hc
        · subst hc; exact isDigitB_digitChar (Nat.mod_lt _ (by norm_num))

theorem parseVal_natToCharsAux :
    ∀ fuel n a, n < 10 ^ fuel →
      parseVal a (natToCharsAux fuel n) =
        a * 10 ^ (natToCharsAux fuel n).length + n := by
  intro fuel
  induction fuel with
  | zero =>
      intro n a hn
      interval_cases n
      simp [natToCharsAux, parseVal]
  | succ f ih =>
      intro n a hn
      by_cases h : n = 0
      · simp [natToCharsAux, h, parseVal]
      · have hdiv : n / 10 < 10 ^ f := by
          rw [Nat.div_lt_iff_lt_mul (by norm_num)]
          calc n < 10 ^ (f + 1) := hn
            _ = 10 ^ f * 10 := by ring
        simp only [natToCharsAux, h, if_false]
        rw [parseVal_append, ih _ _ hdiv]
        have hd : digitVal (Nat.digitChar (n % 10)) = n % 10 :=
          digitVal_digitChar (Nat.mod_lt _ (by norm_num))
        simp only [parseVal, List.foldl_cons, List.foldl_nil, hd,
          List.length_append, List.length_singleton]
        rw [pow_succ]
        have := Nat.div_add_mod n 10
        ring_nf
        omega

theorem natToCharsAux_len_le :
    ∀ fuel n k, n < 10 ^ k → (natToCharsAux fuel n).length ≤ k := by
  intro fuel
  induction fuel with
  | zero => intro n k _; simp [natToCharsAux]
  | succ f ih =>
      intro n k hn
      by_cases h : n = 0
      · simp [natToCharsAux, h]
      · cases k with
        | zero => simp at hn; omega
        | succ k' =>
            have hdiv : n / 10 < 10 ^ k' := by
              rw [Nat.div_lt_iff_lt_mul (by norm_num)]
              calc n < 10 ^ (k' + 1) := hn
                _ = 10 ^ k' * 10 := by ring
            simp only [natToCharsAux, h, if_false, List.length_append,
              List.length_singleton]
            have := ih (n / 10) k' hdiv
            omega

theorem natToChars_digits (n : Nat) : ∀ c ∈ natToChars n, isDigitB c = true := by
  intro c hc
  by_cases h : n = 0
  · simp [natToChars, h] at hc; subst hc; decide
  · simp only [natToChars, h, if_false] at hc
    exact natToCharsAux_digits n n c hc

theorem natToChars_ne_nil (n : Nat) : natToChars n ≠ [] := by
  by_cases h : n = 0
  · simp [natToChars, h]
  · have hfuel : n < 10 ^ n := Nat.lt_pow_self (by norm_num) n
    simp only [natToChars, h, if_false]
    cases hf : n with
    | zero => omega
    | succ m =>
        simp only [natToCharsAux, h, if_false]
        simp

theorem parseVal_natToChars (n : Nat) : parseVal 0 (natToChars n) = n := by
  by_cases h : n = 0
  · subst h; decide
  · have hfuel : n < 10 ^ n := Nat.lt_pow_self (by norm_num) n
    simp only [natToChars, h, if_false]
    rw [parseVal_natToCharsAux n n 0 hfuel]
    omega

theorem natToChars_len_le {n k : Nat} (hk : 1 ≤ k) (hn : n < 10 ^ k) :
    (natToChars n).length ≤ k := by
  by_cases h : n = 0
  · simp [natToChars, h]; omega
  · simp only [natToChars, h, if_false]
    exact natToCharsAux_len_le n n k hn

theorem parseVal_zeros :
    ∀ j (l : List Char), parseVal 0 (List.replicate j '0' ++ l) = parseVal 0 l := by
  intro j
  induction j with
  | zero => simp
  | succ m ih =>
      intro l
      simp only [List.replicate_succ, List.cons_append]
      show parseVal (0 * 10 + digitVal '0') _ = _
      have : (0 : Nat) * 10 + digitVal '0' = 0 := by decide
      rw [this]
      exact ih l

theorem parseNat?_renderNatPad (w n : Nat) :
    parseNat? (renderNatPad w n) = some n := by
  have hne : natToChars n ≠ [] := natToChars_ne_nil n
  have hdig : ∀ c ∈ natToChars n, isDigitB c = true := natToChars_digits n
  simp only [renderNatPad, List.leftpad, parseNat?]
  have hempty : (List.replicate (w - (natToChars n).length) '0' ++ natToChars n).isEmpty = false := by
    cases hr : List.replicate (w - (natToChars n).length) '0' ++ natToChars n with
    | nil => exact absurd (List.append_eq_nil.mp hr).2 hne
    | cons a t => rfl
  have hall : (List.replicate (w - (natToChars n).length) '0' ++ natToChars n).all isDigitB = true := by
    rw [List.all_eq_true]
    intro c hc
    rcases List.mem_append.mp hc with hc | hc
    · rw [List.eq_of_mem_replicate hc]; decide
    · exact hdig c hc
  simp only [hempty, hall, Bool.false_eq_true, if_false, if_true]
  rw [parseVal_zeros, parseVal_natToChars]

theorem parseNat?_natToChars (n : Nat) : parseNat? (natToChars n) = some n := by
  have h := parseNat?_renderNatPad 0 n
  simpa [renderNatPad, List.leftpad] using h

/-! ### Splitting a character list on a separator -/

/-- Split on a separator character; always returns at least one (possibly
empty) chunk, like Python's `str.split(sep)`. -/
theorem splitOnChar_ne_nil (sep : Char) (l : List Char) : splitOnChar sep l ≠ [] := by
  cases l with
  | nil => simp [splitOnChar]
  | cons c rest =>
      by_cases h : c = sep <;> simp [splitOnChar, h]

theorem splitOnChar_not_mem {sep : Char} {l : List Char} (h : sep ∉ l) :
    splitOnChar sep l = [l] := by
  induction l with
  | nil => rfl
  | cons c rest ih =>
      have hc : c ≠ sep := fun he => h (he ▸ List.mem_cons_self c rest)
      have hrest : sep ∉ rest := fun he => h (List.mem_cons_of_mem _ he)
      simp only [splitOnChar, hc, if_false, ih hrest, List.headI, List.tail]

theorem splitOnChar_sep {sep : Char} {l₁ : List Char} (l₂ : List Char)
    (h : sep ∉ l₁) :
    splitOnChar sep (l₁ ++ sep :: l₂) = l₁ :: splitOnChar sep l₂ := by
  induction l₁ with
  | nil => simp [splitOnChar]
  | cons c rest ih =>
      have hc : c ≠ sep := fun he => h (he ▸ List.mem_cons_self c rest)
      have hrest : sep ∉ rest := fun he => h (List.mem_cons_of_mem _ he)
      simp only [List.cons_append, splitOnChar, hc, if_false, List.append_eq,
        ih hrest, List.headI, List.tail_cons]

/-- Join lines, terminating every line with `'\n'` (the shape of a text file
that ends in a final newline). -/
theorem splitOnChar_linesJoin {ls : List (List Char)}
    (h : ∀ l ∈ ls, ('\n' : Char) ∉ l) :
    splitOnChar '\n' (linesJoin ls) = ls ++ [[]] := by
  induction ls with
  | nil => rfl
  | cons l rest ih =>
      have hl : ('\n' : Char) ∉ l := h l (List.mem_cons_self _ _)
      have hrest : ∀ x ∈ rest, ('\n' : Char) ∉ x := fun x hx => h x (List.mem_cons_of_mem _ hx)
      simp only [linesJoin, splitOnChar_sep _ hl, ih hrest, List.cons_append]

/-! ### Python string helpers -/


theorem length_dropWhile_le (p : Char → Bool) (l : List Char) :
    (l.dropWhile p).length ≤ l.length := by
  induction l with
  | nil => simp
  | cons a t ih =>
      by_cases h : p a
      · rw [List.dropWhile_cons_of_pos h]; simp only [List.length_cons]; omega
      · rw [List.dropWhile_cons_of_neg h]

theorem stripChars_length_le (l : List Char) : (stripChars l).length ≤ l.length := by
  simp only [stripChars, List.length_reverse]
  calc ((l.dropWhile isPyWs).reverse.dropWhile isPyWs).length
      ≤ (l.dropWhile isPyWs).reverse.length := length_dropWhile_le _ _
    _ = (l.dropWhile isPyWs).length := List.length_reverse _
    _ ≤ l.length := length_dropWhile_le _ _

theorem pyStrip_length_le (s : String) : (pyStrip s).length ≤ s.length :=
  stripChars_length_le s.data

/-- The model of Python's `len(s.split())`: number of maximal runs of
non-whitespace characters. -/
theorem den_cast_ne_zero (a : ℚ) : (a.den : ℚ) ≠ 0 := by
  have := a.den_nz
  exact_mod_cast this

theorem num_eq_mul_den (a : ℚ) : (a.num : ℚ) = a * a.den := by
  have hd := den_cast_ne_zero a
  have h := Rat.num_div_den a
  calc (a.num : ℚ) = (a.num : ℚ) / a.den * a.den := by field_simp
    _ = a * a.den := by rw [h]

theorem qfloorDiv_eq_floor (a : ℚ) (n : Nat) (hn : n ≠ 0) :
    qfloorDiv a n = ⌊a / (n : ℚ)⌋ := by
  have hd := den_cast_ne_zero a
  have hnq : (n : ℚ) ≠ 0 := Nat.cast_ne_zero.mpr hn
  have key : a / (n : ℚ) = (a.num : ℚ) / ((a.den * n : Nat) : ℚ) := by
    push_cast
    rw [div_eq_div_iff hnq (mul_ne_zero hd hnq)]
    linear_combination (-(n : ℚ)) * num_eq_mul_den a
  rw [key, Rat.floor_intCast_div_natCast]
  rfl

theorem qmulK_eq (a : ℚ) (k : Nat) : qmulK a k = a * (k : ℚ) := by
  have hd := den_cast_ne_zero a
  rw [qmulK, Rat.mkRat_eq_div]
  push_cast
  rw [div_eq_iff hd]
  linear_combination (k : ℚ) * num_eq_mul_den a

theorem qmodNat_eq (a : ℚ) (n : Nat) (hn : n ≠ 0) :
    qmodNat a n = a - (n : ℚ) * ⌊a / (n : ℚ)⌋ := by
  have hd := den_cast_ne_zero a
  rw [qmodNat, Rat.mkRat_eq_div, qfloorDiv_eq_floor a n hn]
  push_cast
  rw [div_eq_iff hd]
  linear_combination num_eq_mul_den a

theorem pyTruncQ_eq_floor {a : ℚ} (h : 0 ≤ a) : pyTruncQ a = ⌊a⌋ := by
  rw [pyTruncQ, Rat.floor_def]
  have hnum : 0 ≤ a.num := Rat.num_nonneg.mpr h
  rw [Int.tdiv_eq_ediv hnum (by positivity)]

/-! ### Data model (§3 of the spec; `backend/app` services) -/


theorem qmodNat_nonneg (a : ℚ) (n : Nat) (hn : n ≠ 0) : 0 ≤ qmodNat a n := by
  rw [qmodNat_eq a n hn]
  have hpos : (0 : ℚ) < n := by exact_mod_cast Nat.pos_of_ne_zero hn
  have hf := Int.floor_le (a / (n : ℚ))
  have h2 : (n : ℚ) * ⌊a / (n : ℚ)⌋ ≤ (n : ℚ) * (a / (n : ℚ)) :=
    mul_le_mul_of_nonneg_left hf (le_of_lt hpos)
  have h3 : (n : ℚ) * (a / (n : ℚ)) = a := by field_simp
  linarith

theorem intPad_nonneg (w : Nat) {i : Int} (h : 0 ≤ i) :
    intPad w i = renderNatPad w i.toNat := by
  rw [intPad, if_neg (by omega)]

theorem format_timestamp_eq_floorSpec (q : ℚ) (hq : 0 ≤ q) :
    SRTGenerator.format_timestamp q = formatTimestampFloorSpec q := by
  have c36 : ((3600 : ℕ) : ℚ) = (3600 : ℚ) := by norm_num
  have c60 : ((60 : ℕ) : ℚ) = (60 : ℚ) := by norm_num
  have c1 : ((1 : ℕ) : ℚ) = (1 : ℚ) := by norm_num
  have e1 : qfloorDiv q 3600 = ⌊q / (3600 : ℚ)⌋ := by
    rw [qfloorDiv_eq_floor q 3600 (by norm_num), c36]
  have hm3600 : qmodNat q 3600 = q - 3600 * ⌊q / (3600 : ℚ)⌋ := by
    rw [qmodNat_eq q 3600 (by norm_num), c36]
  have e2 : qfloorDiv (qmodNat q 3600) 60 = ⌊(q - 3600 * ⌊q / (3600 : ℚ)⌋) / (60 : ℚ)⌋ := by
    rw [qfloorDiv_eq_floor _ 60 (by norm_num), c60, hm3600]
  have hm60 : qmodNat q 60 = q - 60 * ⌊q / (60 : ℚ)⌋ := by
    rw [qmodNat_eq q 60 (by norm_num), c60]
  have e3 : pyTruncQ (qmodNat q 60) = ⌊q - 60 * ⌊q / (60 : ℚ)⌋⌋ := by
    rw [pyTruncQ_eq_floor (qmodNat_nonneg q 60 (by norm_num)), hm60]
  have hm1 : qmodNat q 1 = q - 1 * ⌊q / (1 : ℚ)⌋ := by
    rw [qmodNat_eq q 1 (by norm_num), c1]
  have e4 : pyTruncQ (qmulK (qmodNat q 1) 1000) = ⌊(q - 1 * ⌊q / (1 : ℚ)⌋) * 1000⌋ := by
    have hnn : 0 ≤ qmulK (qmodNat q 1) 1000 := by
      rw [qmulK_eq]
      exact mul_nonneg (qmodNat_nonneg q 1 (by norm_num)) (by norm_num)
    rw [pyTruncQ_eq_floor hnn, qmulK_eq, hm1]
    norm_num
  have n1 : (0 : Int) ≤ ⌊q / (3600 : ℚ)⌋ := Int.floor_nonneg.mpr (by positivity)
  have hm3600nn : (0 : ℚ) ≤ q - 3600 * ⌊q / (3600 : ℚ)⌋ := by
    rw [← hm3600]; exact qmodNat_nonneg q 3600 (by norm_num)
  have n2 : (0 : Int) ≤ ⌊(q - 3600 * ⌊q / (3600 : ℚ)⌋) / (60 : ℚ)⌋ :=
    Int.floor_nonneg.mpr (by positivity)
  have hm60nn : (0 : ℚ) ≤ q - 60 * ⌊q / (60 : ℚ)⌋ := by
    rw [← hm60]; exact qmodNat_nonneg q 60 (by norm_num)
  have n3 : (0 : Int) ≤ ⌊q - 60 * ⌊q / (60 : ℚ)⌋⌋ := Int.floor_nonneg.mpr hm60nn
  have hm1nn : (0 : ℚ) ≤ q - 1 * ⌊q / (1 : ℚ)⌋ := by
    rw [← hm1]; exact qmodNat_nonneg q 1 (by norm_num)
  have n4 : (0 : Int) ≤ ⌊(q - 1 * ⌊q / (1 : ℚ)⌋) * 1000⌋ :=
    Int.floor_nonneg.mpr (mul_nonneg hm1nn (by norm_num))
  rw [SRTGenerator.format_timestamp, formatTimestampFloorSpec,
    e1, e2, e3, e4, intPad_nonneg 2 n1, intPad_nonneg 2 n2, intPad_nonneg 2 n3,
    intPad_nonneg 3 n4]

/-- C2 (amended): for every non-negative rational number of seconds,
`format_timestamp` returns `HH:MM:SS,mmm` with `hours = ⌊s/3600⌋`,
`minutes = ⌊(s mod 3600)/60⌋`, `secs = ⌊s mod 60⌋` and — amended —
`millis = ⌊(s mod 1)·1000⌋` (the code truncates; the claim said `round`),
each zero-padded (`HH`/`MM`/`SS` to 2 digits, `mmm` to 3); in particular
`format(3661.5) = "01:01:01,500"`, `format(0.0) = "00:00:00,000"` and
`format(65.123) = "00:01:05,123"`. -/
theorem c2_format_timestamp_floor :
    (∀ q : ℚ, 0 ≤ q → SRTGenerator.format_timestamp q = formatTimestampFloorSpec q) ∧
    SRTGenerator.format_timestamp (mkRat 7323 2) = "01:01:01,500" ∧
    SRTGenerator.format_timestamp 0 = "00:00:00,000" ∧
    SRTGenerator.format_timestamp (mkRat 65123 1000) = "00:01:05,123" :=
  ⟨format_timestamp_eq_floorSpec, by decide, by decide, by decide⟩


/-- C2 witness: the amended theorem applied at `2.5` seconds. -/
theorem c2_format_timestamp_floor_witness :
    (0 : ℚ) ≤ mkRat 5 2 ∧
    SRTGenerator.format_timestamp (mkRat 5 2) = formatTimestampFloorSpec (mkRat 5 2) :=
  ⟨by decide, c2_format_timestamp_floor.1 (mkRat 5 2) (by decide)⟩

/-- C2 counterexample: at `0.0009` seconds the code truncates the
milliseconds to `000`, while the claim's `round` formula yields `001`. -/
theorem c2_format_timestamp_counterexample :
    SRTGenerator.format_timestamp (mkRat 9 10000) = "00:00:00,000" ∧
    formatTimestampRoundSpec (mkRat 9 10000) = "00:00:00,001" ∧
    ("00:00:00,000" : String) ≠ "00:00:00,001" := by
  refine ⟨by decide, ?_, by decide⟩
  have hq : (mkRat 9 10000 : ℚ) = 9 / 10000 := by
    rw [Rat.mkRat_eq_div]; norm_num
  rw [formatTimestampRoundSpec, hq]
  norm_num [round_eq]
  decide

theorem translate_segments_loop_ok (cfg : Settings) (b : Backends)
    (src tgt ctx : String) (prov : Option String) (T : String → String)
    (hsrc : cfg.SUPPORTED_LANGUAGES.contains src = true)
    (htgt : cfg.SUPPORTED_LANGUAGES.contains tgt = true)
    (hb : ∀ t, LLMClient.translate_with_context cfg b t src tgt ctx prov = .ok (T t)) :
    ∀ segs : List Segment,
      Translator.translate_segments_loop cfg b src tgt ctx prov segs =
        .ok (segs.map fun s => ⟨s.start, s.«end», s.text, T s.text⟩) := by
  intro segs
  induction segs with
  | nil => rfl
  | cons seg rest ih =>
      simp only [Translator.translate_segments_loop, Translator.translate_segment,
        hsrc, not_true, if_false, htgt, hb, ih, List.map_cons]

/-- C1: for supported source/target languages and any translation backend
(i.e. any total `T` realised by the gateway), `translate_segments` on a
non-empty list of `N` segments returns exactly `N` outputs, each copying the
input's `start`/`end`/`text` unchanged and adding `translated_text = T text`;
on the empty list it fails with `ValueError`. -/
theorem c1_translate_segments (cfg : Settings) (b : Backends)
    (segs : List Segment) (src tgt ctx : String) (prov : Option String)
    (T : String → String)
    (hsrc : cfg.SUPPORTED_LANGUAGES.contains src = true)
    (htgt : cfg.SUPPORTED_LANGUAGES.contains tgt = true)
    (hb : ∀ t, LLMClient.translate_with_context cfg b t src tgt ctx prov = .ok (T t))
    (hne : segs ≠ []) :
    Translator.translate_segments cfg b segs src tgt ctx prov =
      .ok (segs.map fun s => ⟨s.start, s.«end», s.text, T s.text⟩) ∧
    (segs.map fun s => (⟨s.start, s.«end», s.text, T s.text⟩ : TranslatedSegment)).length
      = segs.length ∧
    Translator.translate_segments cfg b [] src tgt ctx prov =
      .error (.valueError "Cannot translate empty segments") := by
  refine ⟨?_, List.length_map _ _, rfl⟩
  rw [Translator.translate_segments]
  rw [if_neg (by simpa [List.isEmpty_iff] using hne)]
  exact translate_segments_loop_ok cfg b src tgt ctx prov T hsrc htgt hb segs

/-- C1 witness: two segments translated through a Gemini backend that always
answers `"hola"`. -/
theorem c1_translate_segments_witness :
    Translator.translate_segments cfgG bHola
        [⟨0, mkRat 5 2, "Hello"⟩, ⟨mkRat 5 2, 5, "World"⟩] "en" "es" "" none =
      .ok [⟨0, mkRat 5 2, "Hello", "hola"⟩, ⟨mkRat 5 2, 5, "World", "hola"⟩] :=
  (c1_translate_segments cfgG bHola
    [⟨0, mkRat 5 2, "Hello"⟩, ⟨mkRat 5 2, 5, "World"⟩] "en" "es" "" none
    (fun _ => "hola") (by decide) (by decide) (fun _ => rfl) (by decide)).1

/-- C6 (amended): an omitted provider resolves to the configured default; a
*non-empty* provider argument other than `"openai"`/`"gemini"` makes both
gateway operations fail with `Unknown provider: ...` for every backend (so no
backend is invoked), the empty string being the one argument that silently
falls back to the default instead. -/
theorem c6_provider_resolution (cfg : Settings) (b b' : Backends)
    (path lang text src tgt ctx p : String)
    (hp0 : p ≠ "") (hpo : p ≠ "openai") (hpg : p ≠ "gemini") :
    LLMClient.transcribe_audio cfg b path lang none =
      LLMClient.transcribe_audio cfg b path lang (some cfg.DEFAULT_LLM_PROVIDER) ∧
    LLMClient.translate_with_context cfg b text src tgt ctx none =
      LLMClient.translate_with_context cfg b text src tgt ctx
        (some cfg.DEFAULT_LLM_PROVIDER) ∧
    LLMClient.transcribe_audio cfg b path lang (some p) =
      .error (.valueError ("Unknown provider: " ++ p)) ∧
    LLMClient.translate_with_context cfg b text src tgt ctx (some p) =
      .error (.valueError ("Unknown provider: " ++ p)) ∧
    LLMClient.transcribe_audio cfg b path lang (some p) =
      LLMClient.transcribe_audio cfg b' path lang (some p) ∧
    LLMClient.translate_with_context cfg b text src tgt ctx (some p) =
      LLMClient.translate_with_context cfg b' text src tgt ctx (some p) := by
  have hres : LLMClient.resolveProvider cfg (some p) = p := by
    simp [LLMClient.resolveProvider, hp0]
  have hresd : LLMClient.resolveProvider cfg (some cfg.DEFAULT_LLM_PROVIDER) =
      cfg.DEFAULT_LLM_PROVIDER := by
    by_cases h : cfg.DEFAULT_LLM_PROVIDER = "" <;>
      simp [LLMClient.resolveProvider, h]
  refine ⟨?_, ?_, ?_, ?_, ?_, ?_⟩
  · rw [LLMClient.transcribe_audio, LLMClient.transcribe_audio, hresd]; rfl
  · rw [LLMClient.translate_with_context, LLMClient.translate_with_context, hresd]; rfl
  · rw [LLMClient.transcribe_audio, hres, if_neg hpo, if_neg hpg]
  · rw [LLMClient.translate_with_context, hres, if_neg hpo, if_neg hpg]
  · rw [LLMClient.transcribe_audio, LLMClient.transcribe_audio, hres,
      if_neg hpo, if_neg hpg, if_neg hpo, if_neg hpg]
  · rw [LLMClient.translate_with_context, LLMClient.translate_with_context, hres,
      if_neg hpo, if_neg hpg, if_neg hpo, if_neg hpg]


/-- C6 witness: the amended theorem at provider `"foo"`. -/
theorem c6_provider_resolution_witness :
    LLMClient.transcribe_audio cfgG bOkG "a.wav" "en" (some "foo") =
      .error (.valueError "Unknown provider: foo") ∧
    LLMClient.translate_with_context cfgG bOkG "hi" "en" "es" "" (some "foo") =
      .error (.valueError "Unknown provider: foo") :=
  ⟨(c6_provider_resolution cfgG bOkG bFail "a.wav" "en" "hi" "en" "es" "" "foo"
      (by decide) (by decide) (by decide)).2.2.1,
   (c6_provider_resolution cfgG bOkG bFail "a.wav" "en" "hi" "en" "es" "" "foo"
      (by decide) (by decide) (by decide)).2.2.2.1⟩

/-- C6 counterexample: the empty string is a provider argument that is
neither `"openai"` nor `"gemini"`, yet the call does not fail — it resolves
to the default provider and returns the backend's answer. -/
theorem c6_provider_resolution_counterexample :
    ("" : String) ≠ "openai" ∧ ("" : String) ≠ "gemini" ∧
    LLMClient.translate_with_context cfgG bOkG "hi" "en" "es" "" (some "") =
      .ok "X" := by
  refine ⟨by decide, by decide, by decide⟩

/-- C7: with the audio file present, an unsupported language passed to
transcription, or as source or target of translation, fails with a
`ValueError` naming the offending code and listing the allowed set, before
any provider call (the result does not depend on the backends); source and
target are validated independently with distinct messages. -/
theorem c7_language_validation (cfg : Settings) (b b' : Backends)
    (fe : String → Bool) (path lang badSrc goodSrc badTgt text ctx x : String)
    (prov : Option String)
    (hfe : fe path = true)
    (hlang : cfg.SUPPORTED_LANGUAGES.contains lang = false)
    (hbs : cfg.SUPPORTED_LANGUAGES.contains badSrc = false)
    (hgs : cfg.SUPPORTED_LANGUAGES.contains goodSrc = true)
    (hbt : cfg.SUPPORTED_LANGUAGES.contains badTgt = false) :
    Transcriber.transcribe_audio fe cfg b path lang prov =
      .error (.valueError (transcribeLangMsg cfg lang)) ∧
    Transcriber.transcribe_audio fe cfg b path lang prov =
      Transcriber.transcribe_audio fe cfg b' path lang prov ∧
    Translator.translate_segment cfg b text badSrc badTgt ctx prov =
      .error (.valueError (srcLangMsg cfg badSrc)) ∧
    Translator.translate_segment cfg b text badSrc badTgt ctx prov =
      Translator.translate_segment cfg b' text badSrc badTgt ctx prov ∧
    Translator.translate_segment cfg b text goodSrc badTgt ctx prov =
      .error (.valueError (tgtLangMsg cfg badTgt)) ∧
    Translator.translate_segment cfg b text goodSrc badTgt ctx prov =
      Translator.translate_segment cfg b' text goodSrc badTgt ctx prov ∧
    srcLangMsg cfg x ≠ tgtLangMsg cfg x := by
  have e1 : Transcriber.transcribe_audio fe cfg b path lang prov =
      .error (.valueError (transcribeLangMsg cfg lang)) := by
    rw [Transcriber.transcribe_audio, if_neg (by simp [hfe]), if_pos (by simpa using hlang)]
  have e1' : Transcriber.transcribe_audio fe cfg b' path lang prov =
      .error (.valueError (transcribeLangMsg cfg lang)) := by
    rw [Transcriber.transcribe_audio, if_neg (by simp [hfe]), if_pos (by simpa using hlang)]
  have e2 : Translator.translate_segment cfg b text badSrc badTgt ctx prov =
      .error (.valueError (srcLangMsg cfg badSrc)) := by
    rw [Translator.translate_segment, if_pos (by simpa using hbs)]
  have e2' : Translator.translate_segment cfg b' text badSrc badTgt ctx prov =
      .error (.valueError (srcLangMsg cfg badSrc)) := by
    rw [Translator.translate_segment, if_pos (by simpa using hbs)]
  have e3 : Translator.translate_segment cfg b text goodSrc badTgt ctx prov =
      .error (.valueError (tgtLangMsg cfg badTgt)) := by
    rw [Translator.translate_segment, if_neg (by simpa using hgs), if_pos (by simpa using hbt)]
  have e3' : Translator.translate_segment cfg b' text goodSrc badTgt ctx prov =
      .error (.valueError (tgtLangMsg cfg badTgt)) := by
    rw [Translator.translate_segment, if_neg (by simpa using hgs), if_pos (by simpa using hbt)]
  have hmsg : srcLangMsg cfg x ≠ tgtLangMsg cfg x := by
    intro h
    have h2 := congrArg (fun s => s.data.head?) h
    simp only [srcLangMsg, tgtLangMsg, String.data_append] at h2
    simp at h2
  exact ⟨e1, e1.trans e1'.symm, e2, e2.trans e2'.symm, e3, e3.trans e3'.symm, hmsg⟩

/-- C7 witness: the language `"xyz"` rejected everywhere, `"en"` accepted as
source with `"xyz"` rejected as target. -/
theorem c7_language_validation_witness :
    Transcriber.transcribe_audio (fun _ => true) cfgG bOkG "a.wav" "xyz" none =
      .error (.valueError (transcribeLangMsg cfgG "xyz")) ∧
    Translator.translate_segment cfgG bOkG "hi" "xyz" "en" "" none =
      .error (.valueError (srcLangMsg cfgG "xyz")) ∧
    Translator.translate_segment cfgG bOkG "hi" "en" "xyz" "" none =
      .error (.valueError (tgtLangMsg cfgG "xyz")) ∧
    srcLangMsg cfgG "xyz" ≠ tgtLangMsg cfgG "xyz" := by
  have h := c7_language_validation cfgG bOkG bFail (fun _ => true) "a.wav" "xyz"
    "xyz" "en" "xyz" "hi" "" "xyz" none (by decide) (by decide) (by decide)
    (by decide) (by decide)
  exact ⟨h.1, h.2.2.1, h.2.2.2.2.1, h.2.2.2.2.2.2⟩

/-- C8 (amended): a non-empty segment list whose space-joined text is shorter
than 10 characters short-circuits to the fixed literal
`"Short video content without specific context."` (the claim misquoted the
literal) without any provider call; the empty list fails with `ValueError`. -/
theorem c8_short_context (cfg : Settings) (b : Backends) (segs : List Segment)
    (lang : String) (prov : Option String) (hne : segs ≠ [])
    (hshort : (pyJoin " " (segs.map (·.text))).length < 10) :
    ContextBuilder.build_context cfg b segs lang prov =
      .ok "Short video content without specific context." ∧
    ContextBuilder.build_context cfg b [] lang prov =
      .error (.valueError "Cannot build context from empty segments") := by
  constructor
  · rw [ContextBuilder.build_context, if_neg (by simpa [List.isEmpty_iff] using hne)]
    have hstrip : (pyStrip (pyJoin " " (segs.map (·.text)))).length < 10 :=
      lt_of_le_of_lt (pyStrip_length_le _) hshort
    rw [if_pos hstrip]
  · rfl


/-- C8 witness: one short segment. -/
theorem c8_short_context_witness :
    ContextBuilder.build_context defaultSettings bFail [⟨0, 1, "hi"⟩] "en" none =
      .ok "Short video content without specific context." :=
  (c8_short_context defaultSettings bFail [⟨0, 1, "hi"⟩] "en" none
    (by decide) (by decide)).1

/-- C8 counterexample: the short-input fallback literal is
`"Short video content without specific context."`, not the claim's
`"short content, no specific context"`. -/
theorem c8_short_context_counterexample :
    ContextBuilder.build_context defaultSettings bFail [⟨0, 1, "hi"⟩] "en" none =
      .ok "Short video content without specific context." ∧
    (Except.ok "Short video content without specific context." : Except Err String) ≠
      .ok "short content, no specific context" := by
  exact ⟨by decide, by decide⟩

/-- C10 (amended): for a non-empty segment list whose *stripped* joined text
reaches the 10-character threshold and a *non-empty* provider name that is
neither `"openai"` nor `"gemini"`, `build_context` does not raise the
internal unknown-provider `ValueError`: it is caught by the same catch-all
as provider failures and the word-count fallback string is returned. -/
theorem c10_unknown_provider (cfg : Settings) (b : Backends) (segs : List Segment)
    (lang p : String) (hne : segs ≠ [])
    (hlong : 10 ≤ (pyStrip (pyJoin " " (segs.map (·.text)))).length)
    (hp0 : p ≠ "") (hpo : p ≠ "openai") (hpg : p ≠ "gemini") :
    ContextBuilder.build_context cfg b segs lang (some p) =
      .ok ("Content in " ++ lang ++ " language. Length: approximately " ++
        natStr (pyWordCount (pyJoin " " (segs.map (·.text)))) ++ " words.") := by
  rw [ContextBuilder.build_context, if_neg (by simpa [List.isEmpty_iff] using hne),
    if_neg (by omega)]
  rw [ContextBuilder.generate_context_with_llm]
  have hres : LLMClient.resolveProvider cfg (some p) = p := by
    simp [LLMClient.resolveProvider, hp0]
  rw [hres, if_neg hpo, if_neg hpg]


/-- C10 witness: provider `"foo"` on a 17-character transcript. -/
theorem c10_unknown_provider_witness :
    ContextBuilder.build_context cfgG bOkG [⟨0, 1, "hello there world"⟩] "en"
        (some "foo") =
      .ok ("Content in en language. Length: approximately " ++ natStr 3 ++ " words.") := by
  have h := c10_unknown_provider cfgG bOkG [⟨0, 1, "hello there world"⟩] "en" "foo"
    (by decide) (by decide) (by decide) (by decide) (by decide)
  rw [h]
  have : pyWordCount (pyJoin " " ([(⟨0, 1, "hello there world"⟩ : Segment)].map (·.text))) = 3 := by
    decide
  rw [this]
  decide

/-- C10 counterexample: the empty-string provider is neither `"openai"` nor
`"gemini"`, but no fallback is produced — the default provider is silently
used and its successful answer returned. -/
theorem c10_unknown_provider_counterexample :
    ("" : String) ≠ "openai" ∧ ("" : String) ≠ "gemini" ∧
    ContextBuilder.build_context cfgG bOkG [⟨0, 1, "hello there world"⟩] "en"
        (some "") = .ok "X" ∧
    (Except.ok "X" : Except Err String) ≠
      .ok ("Content in en language. Length: approximately 3 words.") := by
  exact ⟨by decide, by decide, by decide, by decide⟩

/-- C4 (amended): for a non-empty segment list whose *stripped* joined text
reaches the 10-character threshold, a failing provider does not make
`build_context` fail — it returns the fallback naming the source language
and the approximate word count; and the Context Builder is the only such
stage: the Translator and Transcriber propagate provider failure as errors. -/
theorem c4_context_fallback (cfg : Settings) (b : Backends) (segs : List Segment)
    (lang text src tgt ctx path : String) (prov : Option String)
    (fe : String → Bool) (eo eg eot egt : Err)
    (hne : segs ≠ [])
    (hlong : 10 ≤ (pyStrip (pyJoin " " (segs.map (·.text)))).length)
    (ho : ∀ s, b.openaiChat s = .error eo)
    (hg : ∀ s, b.geminiGenerate s = .error eg)
    (hot : ∀ s, b.openaiTranscribe s = .error eot)
    (hgt : ∀ s, b.geminiTranscribe s = .error egt)
    (hko : cfg.OPENAI_API_KEY ≠ "") (hkg : cfg.GEMINI_API_KEY ≠ "")
    (hfe : fe path = true)
    (hsrc : cfg.SUPPORTED_LANGUAGES.contains src = true)
    (htgt : cfg.SUPPORTED_LANGUAGES.contains tgt = true)
    (hlang : cfg.SUPPORTED_LANGUAGES.contains lang = true) :
    ContextBuilder.build_context cfg b segs lang prov =
      .ok ("Content in " ++ lang ++ " language. Length: approximately " ++
        natStr (pyWordCount (pyJoin " " (segs.map (·.text)))) ++ " words.") ∧
    Translator.translate_segment cfg b text src tgt ctx (some "openai") =
      .error (.exn ("OpenAI translation failed: " ++ eo.message)) ∧
    Translator.translate_segment cfg b text src tgt ctx (some "gemini") =
      .error (.exn ("Gemini translation failed: " ++ eg.message)) ∧
    Transcriber.transcribe_audio fe cfg b path lang (some "openai") =
      .error (.exn ("OpenAI transcription failed: " ++ eot.message)) ∧
    Transcriber.transcribe_audio fe cfg b path lang (some "gemini") =
      .error (.exn ("Gemini transcription failed: " ++ egt.message)) := by
  refine ⟨?_, ?_, ?_, ?_, ?_⟩
  · rw [ContextBuilder.build_context, if_neg (by simpa [List.isEmpty_iff] using hne),
      if_neg (by omega), ContextBuilder.generate_context_with_llm]
    by_cases hop : LLMClient.resolveProvider cfg prov = "openai"
    · rw [hop, if_pos rfl, LLMClient.translate_with_openai, if_neg hko, ho]
    · by_cases hgp : LLMClient.resolveProvider cfg prov = "gemini"
      · rw [hgp, if_neg (by decide), if_pos rfl, LLMClient.translate_with_gemini,
          if_neg hkg, hg]
      · rw [if_neg hop, if_neg hgp]
  · rw [Translator.translate_segment, if_neg (by simpa using hsrc), if_neg (by simpa using htgt),
      LLMClient.translate_with_context]
    rw [show LLMClient.resolveProvider cfg (some "openai") = "openai" by rfl,
      if_pos rfl, LLMClient.translate_with_openai, if_neg hko, ho]
  · rw [Translator.translate_segment, if_neg (by simpa using hsrc), if_neg (by simpa using htgt),
      LLMClient.translate_with_context]
    rw [show LLMClient.resolveProvider cfg (some "gemini") = "gemini" by rfl,
      if_neg (by decide), if_pos rfl, LLMClient.translate_with_gemini, if_neg hkg, hg]
  · rw [Transcriber.transcribe_audio, if_neg (by simp [hfe]), if_neg (by simpa using hlang),
      LLMClient.transcribe_audio]
    rw [show LLMClient.resolveProvider cfg (some "openai") = "openai" by rfl,
      if_pos rfl, LLMClient.transcribe_with_openai, if_neg hko, hot]
  · rw [Transcriber.transcribe_audio, if_neg (by simp [hfe]), if_neg (by simpa using hlang),
      LLMClient.transcribe_audio]
    rw [show LLMClient.resolveProvider cfg (some "gemini") = "gemini" by rfl,
      if_neg (by decide), if_pos rfl, LLMClient.transcribe_with_gemini, if_neg hkg, hgt]


/-- C4 witness: the fallback and the propagation, with failing backends. -/
theorem c4_context_fallback_witness :
    ContextBuilder.build_context cfgBoth bFail [⟨0, 1, "hello there world"⟩] "en" none =
      .ok ("Content in en language. Length: approximately " ++ natStr 3 ++ " words.") ∧
    Translator.translate_segment cfgBoth bFail "hi" "en" "es" "" (some "openai") =
      .error (.exn ("OpenAI translation failed: " ++ (Err.exn "boom").message)) ∧
    Transcriber.transcribe_audio (fun _ => true) cfgBoth bFail "a.wav" "en"
        (some "gemini") =
      .error (.exn ("Gemini transcription failed: " ++ (Err.exn "boom").message)) := by
  have h := c4_context_fallback cfgBoth bFail [⟨0, 1, "hello there world"⟩] "en"
    "hi" "en" "es" "" "a.wav" none (fun _ => true)
    (.exn "boom") (.exn "boom") (.exn "boom") (.exn "boom")
    (by decide) (by decide) (fun _ => rfl) (fun _ => rfl) (fun _ => rfl) (fun _ => rfl)
    (by decide) (by decide) (by decide) (by decide) (by decide) (by decide)
  refine ⟨?_, h.2.1, h.2.2.2.2⟩
  rw [h.1]
  have : pyWordCount (pyJoin " " ([(⟨0, 1, "hello there world"⟩ : Segment)].map (·.text))) = 3 := by
    decide
  rw [this]
  decide

/-- C4 counterexample: a joined text of exactly 10 characters that strips to
below the threshold short-circuits to the short-content literal, so the
claimed word-count fallback (naming the language) is not produced even though
the claim's premise (joined length at least 10) holds and the provider
fails. -/
theorem c4_context_fallback_counterexample :
    (pyJoin " " (([⟨0, 1, "         a"⟩] : List Segment).map (·.text))).length = 10 ∧
    ContextBuilder.build_context defaultSettings bFail [⟨0, 1, "         a"⟩] "en" none =
      .ok "Short video content without specific context." ∧
    (Except.ok "Short video content without specific context." : Except Err String) ≠
      .ok "Content in en language. Length: approximately 1 words." := by
  exact ⟨by decide, by decide, by decide⟩

/-- C9 (amended): only the OpenAI transcription path has the no-segmentation
fallback: when the response carries no usable per-segment list (absent or
empty), the gateway returns a single segment with zero timestamps and the
full text.  (The Gemini path has no such fallback; see the counterexample.) -/
theorem c9_transcription_fallback (cfg : Settings) (b : Backends)
    (path lang : String) (resp : OpenAITranscription)
    (hk : cfg.OPENAI_API_KEY ≠ "")
    (hresp : b.openaiTranscribe path = .ok resp)
    (hseg : resp.segments = none ∨ resp.segments = some []) :
    LLMClient.transcribe_audio cfg b path lang (some "openai") =
      .ok [⟨0, 0, resp.text⟩] := by
  obtain ⟨osegs, otext⟩ := resp
  have h2 : osegs = none ∨ osegs = some [] := hseg
  rw [LLMClient.transcribe_audio,
    show LLMClient.resolveProvider cfg (some "openai") = "openai" by rfl,
    if_pos rfl, LLMClient.transcribe_with_openai, if_neg hk, hresp]
  rcases h2 with h | h <;> subst h <;> rfl

/-- C9 witness: an OpenAI response with no segments falls back to one
zero-timestamped segment carrying the full text. -/
theorem c9_transcription_fallback_witness :
    LLMClient.transcribe_audio cfgBoth
        { bFail with openaiTranscribe := fun _ => .ok ⟨none, "full text"⟩ }
        "a.wav" "en" (some "openai") =
      .ok [⟨0, 0, "full text"⟩] :=
  c9_transcription_fallback cfgBoth
    { bFail with openaiTranscribe := fun _ => .ok ⟨none, "full text"⟩ }
    "a.wav" "en" ⟨none, "full text"⟩ (by decide) rfl (Or.inl rfl)

/-- C9 counterexample: on the Gemini path an unusable (non-JSON) response
makes the gateway fail, and a usable-but-empty response yields an empty list
— in neither case the claimed single whole-input segment. -/
theorem c9_transcription_fallback_counterexample :
    LLMClient.transcribe_audio cfgG bBadG "a.wav" "en" (some "gemini") =
      .error (.exn "Gemini transcription failed: invalid JSON") ∧
    LLMClient.transcribe_audio cfgG bOkG "a.wav" "en" (some "gemini") =
      .ok ([] : List Segment) ∧
    ([] : List Segment).length ≠ 1 := by
  exact ⟨by decide, by decide, by decide⟩

/-! ### SRT round trip (C3) -/

theorem isEmpty_false_of_ne_nil {α : Type} {l : List α} (h : l ≠ []) :
    l.isEmpty = false := by
  cases l with
  | nil => exact absurd rfl h
  | cons a t => rfl

theorem renderNatPad_digits (w n : Nat) :
    ∀ c ∈ renderNatPad w n, isDigitB c = true := by
  intro c hc
  rw [renderNatPad, List.leftpad] at hc
  rcases List.mem_append.mp hc with h | h
  · rw [List.eq_of_mem_replicate h]; decide
  · exact natToChars_digits n c h

theorem not_mem_renderNatPad {d : Char} (hd : isDigitB d = false) (w n : Nat) :
    d ∉ renderNatPad w n := by
  intro hmem
  rw [renderNatPad_digits w n d hmem] at hd
  exact absurd hd (by decide)

theorem renderTimestampMs_mem (n : Nat) :
    ∀ c ∈ renderTimestampMs n, isDigitB c = true ∨ c = ':' ∨ c = ',' := by
  intro c hc
  rw [renderTimestampMs] at hc
  simp only [List.append_assoc, List.cons_append] at hc
  rcases List.mem_append.mp hc with h | h
  · exact Or.inl (renderNatPad_digits _ _ c h)
  rcases List.mem_cons.mp h with h | h
  · exact Or.inr (Or.inl h)
  rcases List.mem_append.mp h with h | h
  · exact Or.inl (renderNatPad_digits _ _ c h)
  rcases List.mem_cons.mp h with h | h
  · exact Or.inr (Or.inl h)
  rcases List.mem_append.mp h with h | h
  · exact Or.inl (renderNatPad_digits _ _ c h)
  rcases List.mem_cons.mp h with h | h
  · exact Or.inr (Or.inr h)
  · exact Or.inl (renderNatPad_digits _ _ c h)

theorem colon_not_mem_last (n : Nat) :
    (':' : Char) ∉ renderNatPad 2 (n / 1000 % 60) ++ ',' :: renderNatPad 3 (n % 1000) := by
  intro hmem
  rcases List.mem_append.mp hmem with h | h
  · exact not_mem_renderNatPad (by decide) _ _ h
  · rcases List.mem_cons.mp h with h | h
    · exact absurd h (by decide)
    · exact not_mem_renderNatPad (by decide) _ _ h

theorem parseTimeChars_render (n : Nat) :
    parseTimeChars (renderTimestampMs n) = some (mkRat n 1000) := by
  have hsplit : splitOnChar ':' (renderTimestampMs n) =
      [renderNatPad 2 (n / 3600000), renderNatPad 2 (n / 60000 % 60),
        renderNatPad 2 (n / 1000 % 60) ++ ',' :: renderNatPad 3 (n % 1000)] := by
    rw [renderTimestampMs]
    simp only [List.append_assoc, List.cons_append]
    rw [splitOnChar_sep _ (not_mem_renderNatPad (by decide) _ _),
      splitOnChar_sep _ (not_mem_renderNatPad (by decide) _ _),
      splitOnChar_not_mem (colon_not_mem_last n)]
  have hsplit2 : splitOnChar ',' (renderNatPad 2 (n / 1000 % 60) ++
      ',' :: renderNatPad 3 (n % 1000)) =
      [renderNatPad 2 (n / 1000 % 60), renderNatPad 3 (n % 1000)] := by
    rw [splitOnChar_sep _ (not_mem_renderNatPad (by decide) _ _),
      splitOnChar_not_mem (not_mem_renderNatPad (by decide) _ _)]
  simp only [parseTimeChars, hsplit, hsplit2, parseNat?_renderNatPad]
  congr 1
  have : (n / 3600000 * 3600 + n / 60000 % 60 * 60 + n / 1000 % 60) * 1000 + n % 1000 = n := by
    omega
  exact_mod_cast congrArg (fun m : Nat => mkRat m 1000) this

theorem space_not_mem_srtTimeChars (t : ℚ) : (' ' : Char) ∉ srtTimeChars t := by
  intro hmem
  rcases renderTimestampMs_mem _ _ hmem with h | h | h
  · exact absurd h (by decide)
  · exact absurd h (by decide)
  · exact absurd h (by decide)

theorem parseTimeLine_srtTimeLine (s e : ℚ) :
    parseTimeLine (srtTimeLine s e) = some (msQ s, msQ e) := by
  have harrow : splitOnChar ' ' ('-' :: '-' :: '>' :: ' ' :: srtTimeChars e) =
      [['-', '-', '>'], srtTimeChars e] := by
    rw [show ('-' :: '-' :: '>' :: ' ' :: srtTimeChars e) =
        ['-', '-', '>'] ++ ' ' :: srtTimeChars e from rfl,
      splitOnChar_sep _ (by decide), splitOnChar_not_mem (space_not_mem_srtTimeChars e)]
  have hsplit : splitOnChar ' ' (srtTimeLine s e) =
      [srtTimeChars s, ['-', '-', '>'], srtTimeChars e] := by
    rw [srtTimeLine, splitOnChar_sep _ (space_not_mem_srtTimeChars s), harrow]
  simp only [parseTimeLine, hsplit, if_pos rfl]
  rw [show srtTimeChars s = renderTimestampMs (Int.toNat (qmulFloor s 1000)) from rfl,
    show srtTimeChars e = renderTimestampMs (Int.toNat (qmulFloor e 1000)) from rfl,
    parseTimeChars_render, parseTimeChars_render]
  rfl

theorem newline_not_mem_srtTimeLine (s e : ℚ) :
    ('\n' : Char) ∉ srtTimeLine s e := by
  intro hmem
  simp only [srtTimeLine, List.mem_append, List.mem_cons] at hmem
  rcases hmem with h | h | h | h | h | h | h
  · rcases renderTimestampMs_mem _ _ h with h | h | h <;> exact absurd h (by decide)
  · exact absurd h (by decide)
  · exact absurd h (by decide)
  · exact absurd h (by decide)
  · exact absurd h (by decide)
  · exact absurd h (by decide)
  · rcases renderTimestampMs_mem _ _ h with h | h | h <;> exact absurd h (by decide)

theorem newline_not_mem_natToChars (n : Nat) :
    ('\n' : Char) ∉ natToChars n := by
  intro hmem
  have := natToChars_digits n _ hmem
  exact absurd this (by decide)

theorem srtLines_no_newline {segs : List Segment}
    (hwf : ∀ seg ∈ segs, ('\n' : Char) ∉ seg.text.data) :
    ∀ i, ∀ l ∈ srtLines i segs, ('\n' : Char) ∉ l := by
  induction segs with
  | nil => intro i l hl; simp [srtLines] at hl
  | cons seg rest ih =>
      intro i l hl
      simp only [srtLines, srtBlockLines, List.cons_append, List.nil_append,
        List.mem_cons] at hl
      rcases hl with rfl | rfl | rfl | rfl | hl
      · exact newline_not_mem_natToChars i
      · exact newline_not_mem_srtTimeLine _ _
      · exact hwf seg (List.mem_cons_self _ _)
      · simp
      · exact ih (fun s hs => hwf s (List.mem_cons_of_mem _ hs)) (i + 1) l hl

theorem parseBlocksF_srtLines :
    ∀ (segs : List Segment), (∀ seg ∈ segs, seg.text.data ≠ []) →
      ∀ i fuel, 2 * segs.length + 2 ≤ fuel →
        parseBlocksF fuel (srtLines i segs ++ [[]]) = some (segs.map srtRound) := by
  intro segs
  induction segs with
  | nil =>
      intro _ i fuel hfuel
      cases fuel with
      | zero => omega
      | succ f => simp [srtLines, parseBlocksF]
  | cons seg rest ih =>
      intro hwf i fuel hfuel
      have htxt : seg.text.data ≠ [] := hwf seg (List.mem_cons_self _ _)
      cases fuel with
      | zero => simp only [List.length_cons] at hfuel; omega
      | succ f =>
          cases f with
          | zero => simp only [List.length_cons] at hfuel; omega
          | succ f' =>
              have hf' : 2 * rest.length + 2 ≤ f' := by
                simp only [List.length_cons] at hfuel; omega
              have hrec := ih (fun s hs => hwf s (List.mem_cons_of_mem _ hs)) (i + 1) f' hf'
              have hidx : (natToChars i).isEmpty = false :=
                isEmpty_false_of_ne_nil (natToChars_ne_nil i)
              have htw : (seg.text.data :: [] :: (srtLines (i + 1) rest ++ [[]])).takeWhile
                  (fun x => !x.isEmpty) = [seg.text.data] := by
                rw [List.takeWhile_cons_of_pos
                    (by simp [isEmpty_false_of_ne_nil htxt]),
                  List.takeWhile_cons_of_neg (by simp)]
              have hdw : (seg.text.data :: [] :: (srtLines (i + 1) rest ++ [[]])).dropWhile
                  (fun x => !x.isEmpty) = [] :: (srtLines (i + 1) rest ++ [[]]) := by
                rw [List.dropWhile_cons_of_pos
                    (by simp [isEmpty_false_of_ne_nil htxt]),
                  List.dropWhile_cons_of_neg (by simp)]
              have hskip : parseBlocksF (f' + 1) ([] :: (srtLines (i + 1) rest ++ [[]])) =
                  parseBlocksF f' (srtLines (i + 1) rest ++ [[]]) := by
                simp [parseBlocksF]
              simp only [srtLines, srtBlockLines, List.append_assoc, List.cons_append,
                List.nil_append]
              simp only [parseBlocksF, hidx, Bool.false_eq_true, if_false,
                parseNat?_natToChars, parseTimeLine_srtTimeLine, htw, hdw,
                List.isEmpty_cons, hskip, hrec, charsIntercalateNewline, List.map_cons]
              rfl

theorem linesJoin_length (ls : List (List Char)) :
    ls.length ≤ (linesJoin ls).length := by
  induction ls with
  | nil => simp [linesJoin]
  | cons l rest ih =>
      simp only [linesJoin, List.length_append, List.length_cons, List.length]
      omega

theorem srtLines_length (segs : List Segment) :
    ∀ i, (srtLines i segs).length = 4 * segs.length := by
  induction segs with
  | nil => intro i; simp [srtLines]
  | cons seg rest ih =>
      intro i
      simp only [srtLines, srtBlockLines, List.length_append, ih, List.length_cons]
      simp only [List.length_cons, List.length_nil, List.length]
      omega

theorem qmulFloor_eq_floor (t : ℚ) (k : Nat) : qmulFloor t k = ⌊t * (k : ℚ)⌋ := by
  have hd := den_cast_ne_zero t
  have key : t * (k : ℚ) = ((t.num * k : Int) : ℚ) / ((t.den : ℕ) : ℚ) := by
    rw [eq_div_iff hd]
    push_cast
    linear_combination (-(k : ℚ)) * num_eq_mul_den t
  rw [key, Rat.floor_intCast_div_natCast]
  rfl

theorem msQ_eq_floor_div {t : ℚ} (ht : 0 ≤ t) :
    msQ t = (⌊t * (1000 : ℚ)⌋ : ℚ) / 1000 := by
  have hnn : (0 : Int) ≤ ⌊t * (1000 : ℚ)⌋ := Int.floor_nonneg.mpr (by positivity)
  have htn : ((Int.toNat (qmulFloor t 1000) : Int)) = ⌊t * (1000 : ℚ)⌋ := by
    rw [qmulFloor_eq_floor]
    exact Int.toNat_of_nonneg hnn
  have hcast : ((Int.toNat (qmulFloor t 1000) : Int) : ℚ) = ((⌊t * (1000 : ℚ)⌋ : Int) : ℚ) := by
    exact_mod_cast htn
  rw [msQ, Rat.mkRat_eq_div, hcast]
  norm_num

theorem msQ_close {t : ℚ} (ht : 0 ≤ t) : |msQ t - t| ≤ 1 / 1000 := by
  have h1 := Int.floor_le (t * (1000 : ℚ))
  have h2 := Int.lt_floor_add_one (t * (1000 : ℚ))
  rw [msQ_eq_floor_div ht, abs_le]
  constructor <;> linarith

theorem forall₂_srtRound (l : List Segment)
    (h : ∀ seg ∈ l, 0 ≤ seg.start ∧ seg.start ≤ seg.«end») :
    List.Forall₂ (fun o s => |o.start - s.start| ≤ 1 / 1000 ∧
      |o.«end» - s.«end»| ≤ 1 / 1000 ∧ o.text = s.text) (l.map srtRound) l := by
  induction l with
  | nil => exact List.Forall₂.nil
  | cons seg rest ih =>
      have hs := h seg (List.mem_cons_self _ _)
      refine List.Forall₂.cons ⟨msQ_close hs.1, msQ_close (le_trans hs.1 hs.2), rfl⟩ ?_
      exact ih fun s hsm => h s (List.mem_cons_of_mem _ hsm)

/-- C3: generating SRT content from a non-empty, time-ordered,
non-overlapping segment list with ASCII-safe non-empty texts and parsing it
back recovers the list: the same number of segments, each `start`/`end`
within 1 millisecond of the original and each `text` exactly equal
(original-text direction, `use_translated = false`). -/
theorem c3_srt_round_trip (segs : List Segment)
    (hne : segs ≠ [])
    (hwf : ∀ seg ∈ segs, 0 ≤ seg.start ∧ seg.start ≤ seg.«end» ∧ seg.text.data ≠ [] ∧
      ∀ c ∈ seg.text.data, c.toNat < 128 ∧ c ≠ '\n' ∧ c ≠ '\r')
    (hord : srtChainOk segs = true) :
    SRTGenerator.generate_srt_from_segments segs = .ok (srtCompose segs) ∧
    SRTGenerator.parse_srt (srtCompose segs) = .ok (segs.map srtRound) ∧
    (segs.map srtRound).length = segs.length ∧
    List.Forall₂ (fun o s => |o.start - s.start| ≤ 1 / 1000 ∧
      |o.«end» - s.«end»| ≤ 1 / 1000 ∧ o.text = s.text) (segs.map srtRound) segs := by
  have hnn : ∀ seg ∈ segs, ('\n' : Char) ∉ seg.text.data := by
    intro s hs hc
    exact absurd rfl ((hwf s hs).2.2.2 _ hc).2.1
  have hsplit : splitOnChar '\n' (linesJoin (srtLines 1 segs)) = srtLines 1 segs ++ [[]] :=
    splitOnChar_linesJoin (fun l hl => srtLines_no_newline hnn 1 l hl)
  have hfuel : 2 * segs.length + 2 ≤ (linesJoin (srtLines 1 segs)).length + 2 := by
    have h1 := linesJoin_length (srtLines 1 segs)
    have h2 := srtLines_length segs 1
    omega
  have hparse := parseBlocksF_srtLines segs (fun s hs => (hwf s hs).2.2.1) 1
    ((linesJoin (srtLines 1 segs)).length + 2) hfuel
  refine ⟨?_, ?_, List.length_map _ _, forall₂_srtRound segs
    (fun s hs => ⟨(hwf s hs).1, (hwf s hs).2.1⟩)⟩
  · rw [SRTGenerator.generate_srt_from_segments,
      if_neg (by simp [isEmpty_false_of_ne_nil hne])]
  · show (match parseBlocksF ((linesJoin (srtLines 1 segs)).length + 2)
        (splitOnChar '\n' (linesJoin (srtLines 1 segs))) with
      | some s => Except.ok s
      | none => Except.error (Err.exn "Failed to parse SRT content: invalid SRT")) =
      Except.ok (segs.map srtRound)
    rw [hsplit, hparse]


/-- C3 witness: the round trip on two concrete segments. -/
theorem c3_srt_round_trip_witness :
    SRTGenerator.generate_srt_from_segments
        [⟨0, mkRat 5 2, "Hello world"⟩, ⟨mkRat 5 2, 5, "Second line"⟩] =
      .ok (srtCompose [⟨0, mkRat 5 2, "Hello world"⟩, ⟨mkRat 5 2, 5, "Second line"⟩]) ∧
    SRTGenerator.parse_srt
        (srtCompose [⟨0, mkRat 5 2, "Hello world"⟩, ⟨mkRat 5 2, 5, "Second line"⟩]) =
      .ok (([⟨0, mkRat 5 2, "Hello world"⟩, ⟨mkRat 5 2, 5, "Second line"⟩] :
        List Segment).map srtRound) ∧
    (([⟨0, mkRat 5 2, "Hello world"⟩, ⟨mkRat 5 2, 5, "Second line"⟩] :
        List Segment).map srtRound).length =
      ([⟨0, mkRat 5 2, "Hello world"⟩, ⟨mkRat 5 2, 5, "Second line"⟩] :
        List Segment).length ∧
    List.Forall₂ (fun o s : Segment => |o.start - s.start| ≤ 1 / 1000 ∧
      |o.«end» - s.«end»| ≤ 1 / 1000 ∧ o.text = s.text)
      (([⟨0, mkRat 5 2, "Hello world"⟩, ⟨mkRat 5 2, 5, "Second line"⟩] :
        List Segment).map srtRound)
      [⟨0, mkRat 5 2, "Hello world"⟩, ⟨mkRat 5 2, 5, "Second line"⟩] :=
  c3_srt_round_trip [⟨0, mkRat 5 2, "Hello world"⟩, ⟨mkRat 5 2, 5, "Second line"⟩]
    (by decide) (by decide) (by decide)

/-! ### CSV round trip (C5) -/

theorem takeWhile_append_sep (p : Char → Bool) :
    ∀ (l : List Char) (x : Char) (r : List Char), (∀ c ∈ l, p c = true) → p x = false →
      (l ++ x :: r).takeWhile p = l ∧ (l ++ x :: r).dropWhile p = x :: r := by
  intro l
  induction l with
  | nil =>
      intro x r _ hx
      constructor
      · rw [List.nil_append, List.takeWhile_cons_of_neg (by simp [hx])]
      · rw [List.nil_append, List.dropWhile_cons_of_neg (by simp [hx])]
  | cons c t ih =>
      intro x r hall hx
      have hc : p c = true := hall c (List.mem_cons_self _ _)
      have ht := ih x r (fun d hd => hall d (List.mem_cons_of_mem _ hd)) hx
      constructor
      · rw [List.cons_append, List.takeWhile_cons_of_pos hc, ht.1]
      · rw [List.cons_append, List.dropWhile_cons_of_pos hc, ht.2]

theorem csvEscape_length (s : List Char) : s.length ≤ (csvEscape s).length := by
  induction s with
  | nil => simp [csvEscape]
  | cons c t ih =>
      by_cases h : c = '"'
      · subst h
        rw [show csvEscape ('"' :: t) = '"' :: '"' :: csvEscape t from rfl]
        simp only [List.length_cons]
        omega
      · rw [show csvEscape (c :: t) = c :: csvEscape t from by simp [csvEscape, h]]
        simp only [List.length_cons]
        omega

theorem csvQuoted?_escape :
    ∀ (s rest : List Char) (fuel : Nat), s.length + 1 ≤ fuel →
      rest.head? ≠ some '"' →
      csvQuoted? fuel (csvEscape s ++ '"' :: rest) = some (s, rest) := by
  intro s
  induction s with
  | nil =>
      intro rest fuel hfuel hrest
      cases fuel with
      | zero => omega
      | succ F =>
          show csvQuoted? (F + 1) ('"' :: rest) = some ([], rest)
          cases rest with
          | nil => simp [csvQuoted?]
          | cons c2 r2 =>
              have hc2 : c2 ≠ '"' := by
                intro he
                exact hrest (by simp [he])
              simp [csvQuoted?, hc2]
  | cons c t ih =>
      intro rest fuel hfuel hrest
      cases fuel with
      | zero => simp at hfuel
      | succ F =>
          have hF : t.length + 1 ≤ F := by
            simp only [List.length_cons] at hfuel; omega
          by_cases hc : c = '"'
          · subst hc
            show csvQuoted? (F + 1) ('"' :: '"' :: (csvEscape t ++ '"' :: rest)) =
              some ('"' :: t, rest)
            simp [csvQuoted?, ih rest F hF hrest]
          · rw [show csvEscape (c :: t) = c :: csvEscape t from by simp [csvEscape, hc],
              List.cons_append]
            simp [csvQuoted?, hc, ih rest F hF hrest]

theorem clean_of_not_needsQuote {f : List Char} (h : csvNeedsQuote f = false) :
    ∀ c ∈ f, csvNotSep c = true ∧ c ≠ '"' := by
  intro c hc
  rw [csvNeedsQuote] at h
  have h2 := List.any_eq_false.mp h c hc
  simp only [Bool.or_eq_true, decide_eq_true_eq, not_or] at h2
  obtain ⟨⟨⟨h₁, h₂⟩, h₃⟩, h₄⟩ := h2
  exact ⟨by simp [csvNotSep, h₁, h₃], h₂⟩

theorem csvFields?_rowEnc :
    ∀ (fields : List (List Char)), fields ≠ [] → ∀ (rest' : List Char) (fuel : Nat),
      (csvRowEnc fields).length + 1 ≤ fuel →
      csvFields? fuel (csvRowEnc fields ++ '\n' :: rest') = some (fields, rest') := by
  intro fields
  induction fields with
  | nil => intro h; exact absurd rfl h
  | cons f more ih =>
      intro _ rest' fuel hfuel
      cases more with
      | nil =>
          have hrow : csvRowEnc [f] = csvFieldEnc f := rfl
          rw [hrow] at hfuel ⊢
          cases fuel with
          | zero => omega
          | succ F =>
              by_cases hq : csvNeedsQuote f = true
              · have henc : csvFieldEnc f = '"' :: (csvEscape f ++ ['"']) := by
                  rw [csvFieldEnc, if_pos hq]
                have hFq : f.length + 1 ≤ F := by
                  have h1 := csvEscape_length f
                  rw [henc] at hfuel
                  simp only [List.length_cons, List.length_append,
                    List.length_singleton] at hfuel
                  omega
                rw [henc]
                simp only [List.cons_append, List.append_assoc, List.singleton_append]
                have hquo := csvQuoted?_escape f ('\n' :: rest') F hFq (by simp)
                simp [csvFields?, hquo]
              · have hq' : csvNeedsQuote f = false := by
                  cases h : csvNeedsQuote f
                  · rfl
                  · exact absurd h hq
                have hclean := clean_of_not_needsQuote hq'
                have henc : csvFieldEnc f = f := by rw [csvFieldEnc, if_neg (by simp [hq'])]
                rw [henc]
                cases f with
                | nil =>
                    have ht : (('\n' :: rest') : List Char).takeWhile csvNotSep = [] :=
                      List.takeWhile_cons_of_neg (by decide)
                    have hd : (('\n' :: rest') : List Char).dropWhile csvNotSep =
                        '\n' :: rest' := List.dropWhile_cons_of_neg (by decide)
                    simp [csvFields?, ht, hd]
                | cons c0 t0 =>
                    have hc0 : csvNotSep c0 = true :=
                      (hclean c0 (List.mem_cons_self _ _)).1
                    have hc0q : c0 ≠ '"' := (hclean c0 (List.mem_cons_self _ _)).2
                    have htdw := takeWhile_append_sep csvNotSep t0 '\n' rest'
                      (fun d hd => (hclean d (List.mem_cons_of_mem _ hd)).1) (by decide)
                    simp only [List.cons_append]
                    have ht : (c0 :: (t0 ++ '\n' :: rest')).takeWhile csvNotSep =
                        c0 :: t0 := by
                      rw [List.takeWhile_cons_of_pos hc0, htdw.1]
                    have hd : (c0 :: (t0 ++ '\n' :: rest')).dropWhile csvNotSep =
                        '\n' :: rest' := by
                      rw [List.dropWhile_cons_of_pos hc0, htdw.2]
                    simp [csvFields?, hc0q, ht, hd]
      | cons g more2 =>
          have hrow : csvRowEnc (f :: g :: more2) =
              csvFieldEnc f ++ ',' :: csvRowEnc (g :: more2) := rfl
          rw [hrow] at hfuel ⊢
          cases fuel with
          | zero => omega
          | succ F =>
              have hbound : (csvRowEnc (g :: more2)).length + 1 ≤ F := by
                simp only [List.length_append, List.length_cons] at hfuel
                omega
              have hrec := ih (by simp) rest' F hbound
              simp only [List.append_assoc, List.cons_append]
              by_cases hq : csvNeedsQuote f = true
              · have henc : csvFieldEnc f = '"' :: (csvEscape f ++ ['"']) := by
                  rw [csvFieldEnc, if_pos hq]
                have hFq : f.length + 1 ≤ F := by
                  have h1 := csvEscape_length f
                  rw [henc] at hfuel
                  simp only [List.length_cons, List.length_append,
                    List.length_singleton] at hfuel
                  omega
                rw [henc]
                simp only [List.cons_append, List.append_assoc, List.singleton_append]
                have hquo := csvQuoted?_escape f
                  (',' :: (csvRowEnc (g :: more2) ++ '\n' :: rest')) F hFq (by simp)
                simp [csvFields?, hquo, hrec]
              · have hq' : csvNeedsQuote f = false := by
                  cases h : csvNeedsQuote f
                  · rfl
                  · exact absurd h hq
                have hclean := clean_of_not_needsQuote hq'
                have henc : csvFieldEnc f = f := by rw [csvFieldEnc, if_neg (by simp [hq'])]
                rw [henc]
                cases f with
                | nil =>
                    have ht : ((',' :: (csvRowEnc (g :: more2) ++ '\n' :: rest')) :
                        List Char).takeWhile csvNotSep = [] :=
                      List.takeWhile_cons_of_neg (by decide)
                    have hd : ((',' :: (csvRowEnc (g :: more2) ++ '\n' :: rest')) :
                        List Char).dropWhile csvNotSep =
                        ',' :: (csvRowEnc (g :: more2) ++ '\n' :: rest') :=
                      List.dropWhile_cons_of_neg (by decide)
                    simp [csvFields?, ht, hd, hrec]
                | cons c0 t0 =>
                    have hc0 : csvNotSep c0 = true :=
                      (hclean c0 (List.mem_cons_self _ _)).1
                    have hc0q : c0 ≠ '"' := (hclean c0 (List.mem_cons_self _ _)).2
                    have htdw := takeWhile_append_sep csvNotSep t0 ','
                      (csvRowEnc (g :: more2) ++ '\n' :: rest')
                      (fun d hd => (hclean d (List.mem_cons_of_mem _ hd)).1) (by decide)
                    simp only [List.cons_append]
                    have ht : (c0 :: (t0 ++ ',' :: (csvRowEnc (g :: more2) ++
                        '\n' :: rest'))).takeWhile csvNotSep = c0 :: t0 := by
                      rw [List.takeWhile_cons_of_pos hc0, htdw.1]
                    have hd : (c0 :: (t0 ++ ',' :: (csvRowEnc (g :: more2) ++
                        '\n' :: rest'))).dropWhile csvNotSep =
                        ',' :: (csvRowEnc (g :: more2) ++ '\n' :: rest') := by
                      rw [List.dropWhile_cons_of_pos hc0, htdw.2]
                    simp [csvFields?, hc0q, ht, hd, hrec]

theorem isEmpty_append_cons {α : Type} (A : List α) (x : α) (r : List α) :
    (A ++ x :: r).isEmpty = false := by
  cases A <;> rfl

theorem csvRecords?_fileEnc :
    ∀ (rows : List (List (List Char))), (∀ r ∈ rows, r ≠ []) →
      ∀ fuel, (csvFileEnc rows).length + 1 ≤ fuel →
        csvRecords? fuel (csvFileEnc rows) = some rows := by
  intro rows
  induction rows with
  | nil =>
      intro _ fuel _
      rw [csvRecords?.eq_def]
      simp [csvFileEnc, linesJoin]
  | cons row rest ih =>
      intro hne fuel hfuel
      have hrow : row ≠ [] := hne row (List.mem_cons_self _ _)
      have hcontent : csvFileEnc (row :: rest) =
          csvRowEnc row ++ '\n' :: csvFileEnc rest := rfl
      have hlen : (csvFileEnc (row :: rest)).length =
          (csvRowEnc row).length + 1 + (csvFileEnc rest).length := by
        rw [hcontent]
        simp only [List.length_append, List.length_cons]
        omega
      cases fuel with
      | zero => omega
      | succ F =>
          have hb1 : (csvRowEnc row).length + 1 ≤ F := by omega
          have hb2 : (csvFileEnc rest).length + 1 ≤ F := by omega
          rw [csvRecords?.eq_def, hcontent, if_neg (by simp [isEmpty_append_cons])]
          simp only [csvFields?_rowEnc row hrow (csvFileEnc rest) F hb1,
            ih (fun r hr => hne r (List.mem_cons_of_mem _ hr)) F hb2]

theorem digit_or_dot_not_special {c : Char}
    (h : isDigitB c = true ∨ c = '.' ∨ c = '?') :
    (c = ',' || c = '"' || c = '\n' || c = '\r') = false := by
  rcases h with h | h | h
  · have h1 : c ≠ ',' := fun he => by rw [he] at h; exact absurd h (by decide)
    have h2 : c ≠ '"' := fun he => by rw [he] at h; exact absurd h (by decide)
    have h3 : c ≠ '\n' := fun he => by rw [he] at h; exact absurd h (by decide)
    have h4 : c ≠ '\r' := fun he => by rw [he] at h; exact absurd h (by decide)
    simp [h1, h2, h3, h4]
  · subst h; decide
  · subst h; decide

theorem renderTime6_mem (t : ℚ) :
    ∀ c ∈ renderTime6 t, isDigitB c = true ∨ c = '.' ∨ c = '?' := by
  intro c hc
  by_cases hcond : 0 ≤ t.num ∧ t.den ∣ 1000000
  · rw [renderTime6, if_pos hcond] at hc
    rcases List.mem_append.mp hc with h | h
    · exact Or.inl (natToChars_digits _ _ h)
    · rcases List.mem_cons.mp h with h | h
      · exact Or.inr (Or.inl h)
      · exact Or.inl (renderNatPad_digits _ _ _ h)
  · rw [renderTime6, if_neg hcond] at hc
    rcases List.mem_cons.mp hc with h | h
    · exact Or.inr (Or.inr h)
    · simp at h

theorem csvNeedsQuote_renderTime6 (t : ℚ) : csvNeedsQuote (renderTime6 t) = false := by
  rw [csvNeedsQuote, List.any_eq_false]
  intro c hc
  rw [digit_or_dot_not_special (renderTime6_mem t c hc)]
  simp

theorem parseDecimal?_renderTime6 {t : ℚ} (h1 : 0 ≤ t.num) (h2 : t.den ∣ 1000000) :
    parseDecimal? (renderTime6 t) = some t := by
  have hrend : renderTime6 t =
      natToChars ((t.num * 1000000 / (t.den : Int)).toNat / 1000000) ++
        '.' :: renderNatPad 6 ((t.num * 1000000 / (t.den : Int)).toNat % 1000000) := by
    rw [renderTime6, if_pos ⟨h1, h2⟩]
  have hsplit : splitOnChar '.' (renderTime6 t) =
      [natToChars ((t.num * 1000000 / (t.den : Int)).toNat / 1000000),
        renderNatPad 6 ((t.num * 1000000 / (t.den : Int)).toNat % 1000000)] := by
    rw [hrend, splitOnChar_sep _ (fun hmem => by
        have := natToChars_digits _ _ hmem
        exact absurd this (by decide)),
      splitOnChar_not_mem (fun hmem => by
        have := renderNatPad_digits _ _ _ hmem
        exact absurd this (by decide))]
  have hlen : (renderNatPad 6 ((t.num * 1000000 / (t.den : Int)).toNat % 1000000)).length
      = 6 := by
    rw [renderNatPad, List.leftpad_length]
    have hlt : (t.num * 1000000 / (t.den : Int)).toNat % 1000000 < 10 ^ 6 := by
      have := Nat.mod_lt ((t.num * 1000000 / (t.den : Int)).toNat)
        (show 0 < 1000000 by norm_num)
      norm_num
      omega
    have := natToChars_len_le (by norm_num) hlt
    omega
  simp only [parseDecimal?, hsplit, parseNat?_natToChars, parseNat?_renderNatPad, hlen]
  congr 1
  have hpow : (10 : ℕ) ^ 6 = 1000000 := by norm_num
  have hsum6 : (t.num * 1000000 / (t.den : Int)).toNat / 1000000 * 10 ^ 6 +
      (t.num * 1000000 / (t.den : Int)).toNat % 1000000 =
      (t.num * 1000000 / (t.den : Int)).toNat := by
    rw [hpow]
    omega
  have hsumZ : (((t.num * 1000000 / (t.den : Int)).toNat / 1000000 : ℕ) : Int) *
      10 ^ 6 + (((t.num * 1000000 / (t.den : Int)).toNat % 1000000 : ℕ) : Int) =
      ((t.num * 1000000 / (t.den : Int)).toNat : Int) := by
    exact_mod_cast hsum6
  rw [hsumZ, hpow]
  have hd0 : (0 : Int) < (t.den : Int) := by exact_mod_cast t.pos
  have hdvd : (t.den : Int) ∣ t.num * 1000000 :=
    Dvd.dvd.mul_left (Int.natCast_dvd_natCast.mpr h2) t.num
  have hexact : t.num * 1000000 / (t.den : Int) * (t.den : Int) = t.num * 1000000 :=
    Int.ediv_mul_cancel hdvd
  have hnn : 0 ≤ t.num * 1000000 / (t.den : Int) :=
    Int.ediv_nonneg (by positivity) (le_of_lt hd0)
  have hcast : (((t.num * 1000000 / (t.den : Int)).toNat : Int)) =
      t.num * 1000000 / (t.den : Int) := Int.toNat_of_nonneg hnn
  have h4 : ((t.num * 1000000 / (t.den : Int)).toNat : Int) * (t.den : Int) =
      t.num * 1000000 := by rw [hcast]; exact hexact
  have h5 : (((t.num * 1000000 / (t.den : Int)).toNat : ℚ)) * (t.den : ℚ) =
      (t.num : ℚ) * 1000000 := by exact_mod_cast h4
  have hdq := den_cast_ne_zero t
  rw [Rat.mkRat_eq_div]
  rw [div_eq_iff (by norm_num : ((1000000 : ℕ) : ℚ) ≠ 0)]
  push_cast
  have h6 : (((t.num * 1000000 / (t.den : Int)).toNat : ℚ)) * (t.den : ℚ) =
      t * 1000000 * (t.den : ℚ) := by
    rw [h5, num_eq_mul_den t]
    ring
  exact mul_right_cancel₀ hdq h6

theorem loadRows_map (segs : List Segment)
    (h : ∀ s ∈ segs, 0 ≤ s.start.num ∧ s.start.den ∣ 1000000 ∧
      0 ≤ s.«end».num ∧ s.«end».den ∣ 1000000) :
    loadRows (segs.map fun s => [renderTime6 s.start, renderTime6 s.«end», s.text.data]) =
      some segs := by
  induction segs with
  | nil => rfl
  | cons seg rest ih =>
      have hs := h seg (List.mem_cons_self _ _)
      have hrec := ih fun s hsm => h s (List.mem_cons_of_mem _ hsm)
      simp only [List.map_cons, loadRows, parseDecimal?_renderTime6 hs.1 hs.2.1,
        parseDecimal?_renderTime6 hs.2.2.1 hs.2.2.2, hrec]

/-- C5: saving a non-empty segment list whose times are non-negative numbers
with (at most microsecond) finite decimal form, then loading the produced
file content back, returns a segment list whose `start`, `end` and `text`
are exactly the originals. -/
theorem c5_csv_round_trip (segs : List Segment) (hne : segs ≠ [])
    (hwf : ∀ s ∈ segs, 0 ≤ s.start.num ∧ s.start.den ∣ 1000000 ∧
      0 ≤ s.«end».num ∧ s.«end».den ∣ 1000000) :
    Transcriber.save_transcript_to_csv segs =
      .ok (⟨csvFileEnc (["start_time".data, "end_time".data, "text".data] ::
        segs.map fun s => [renderTime6 s.start, renderTime6 s.«end», s.text.data])⟩ :
          String) ∧
    Transcriber.load_transcript_from_csv
      (⟨csvFileEnc (["start_time".data, "end_time".data, "text".data] ::
        segs.map fun s => [renderTime6 s.start, renderTime6 s.«end», s.text.data])⟩ :
          String) = .ok segs := by
  constructor
  · rw [Transcriber.save_transcript_to_csv,
      if_neg (by simp [isEmpty_false_of_ne_nil hne])]
  · have hrows : ∀ r ∈ (["start_time".data, "end_time".data, "text".data] ::
        segs.map fun s => [renderTime6 s.start, renderTime6 s.«end», s.text.data]),
        r ≠ [] := by
      intro r hr
      rcases List.mem_cons.mp hr with h | h
      · subst h; simp
      · obtain ⟨s, _, rfl⟩ := List.mem_map.mp h
        simp
    have hrec := csvRecords?_fileEnc _ hrows
      ((csvFileEnc (["start_time".data, "end_time".data, "text".data] ::
        segs.map fun s =>
          [renderTime6 s.start, renderTime6 s.«end», s.text.data])).length + 1)
      (le_refl _)
    show (match csvRecords?
        ((csvFileEnc (["start_time".data, "end_time".data, "text".data] ::
          segs.map fun s =>
            [renderTime6 s.start, renderTime6 s.«end», s.text.data])).length + 1)
        (csvFileEnc (["start_time".data, "end_time".data, "text".data] ::
          segs.map fun s =>
            [renderTime6 s.start, renderTime6 s.«end», s.text.data])) with
      | none => Except.error (Err.exn "Failed to load transcript from CSV: parse error")
      | some [] => Except.ok []
      | some (hdr :: rows) =>
          if hdr = ["start_time".data, "end_time".data, "text".data] then
            match loadRows rows with
            | some segs2 => Except.ok segs2
            | none => Except.error (Err.exn "Failed to load transcript from CSV: bad row")
          else Except.error (Err.exn "Failed to load transcript from CSV: bad header")) =
      Except.ok segs
    simp only [hrec, eq_self_iff_true, if_true, loadRows_map segs hwf]

/-- C5 witness: one segment whose text contains a comma, quotes and a line
break (exercising the CSV quoting), with times `0` and `2.5`. -/
theorem c5_csv_round_trip_witness :
    Transcriber.save_transcript_to_csv [⟨0, mkRat 5 2, "He, \"w\"\nmore"⟩] =
      .ok (⟨csvFileEnc (["start_time".data, "end_time".data, "text".data] ::
        ([⟨0, mkRat 5 2, "He, \"w\"\nmore"⟩] : List Segment).map fun s =>
          [renderTime6 s.start, renderTime6 s.«end», s.text.data])⟩ : String) ∧
    Transcriber.load_transcript_from_csv
      (⟨csvFileEnc (["start_time".data, "end_time".data, "text".data] ::
        ([⟨0, mkRat 5 2, "He, \"w\"\nmore"⟩] : List Segment).map fun s =>
          [renderTime6 s.start, renderTime6 s.«end», s.text.data])⟩ : String) =
      .ok [⟨0, mkRat 5 2, "He, \"w\"\nmore"⟩] :=
  c5_csv_round_trip [⟨0, mkRat 5 2, "He, \"w\"\nmore"⟩] (by decide) (by decide)

end AITod

